import Mathlib

/-!
Verification of the misogate gateway core (repository iot-venture-f25-misogaje,
application tree misogate-prod/src/lora plus the shared crypto sources in
Gabriel_misogate/src).

The development is a shallow embedding of the C sources:
  * bytes are natural numbers (tacitly < 256, tracked by explicit bounds where
    a statement needs them), byte buffers are lists of naturals;
  * 64-bit machine arithmetic is natural-number arithmetic reduced modulo 2^64
    at exactly the operations where the C code can wrap (additions, shifts);
  * C signed integers are Lean integers, with the int32/int16 casts of the
    source made explicit (reduction modulo 2^32 / 2^16, two's complement
    reinterpretation);
  * the float arithmetic of the position-estimation module is embedded over
    the real numbers;
  * global mutable tables (the replay table, baselines, the published
    position) become explicit state passed through the translated functions.
-/

/- ================================================================
   siphash.c (Gabriel_misogate/src/siphash.c)
   ================================================================ -/

/-- The modulus 2^64 of the uint64_t arithmetic in siphash.c. -/
def U64 : ℕ := 2 ^ 64

/-- uint64_t addition (wraps modulo 2^64). -/
def add64 (a b : ℕ) : ℕ := (a + b) % U64

/-- ROTL64 from siphash.c: (x << b) | (x >> (64 - b)) on uint64_t. -/
def rotl64 (x b : ℕ) : ℕ := ((x <<< b) % U64) ||| (x >>> (64 - b))

/-- U8TO64_LE from siphash.c: little-endian load of 8 bytes. -/
def u8to64_le (p : List ℕ) : ℕ :=
  p.getD 0 0 ||| (p.getD 1 0 <<< 8) ||| (p.getD 2 0 <<< 16) |||
  (p.getD 3 0 <<< 24) ||| (p.getD 4 0 <<< 32) ||| (p.getD 5 0 <<< 40) |||
  (p.getD 6 0 <<< 48) ||| (p.getD 7 0 <<< 56)

/-- The four internal state words v0..v3 of SipHash. -/
structure SipState where
  v0 : ℕ
  v1 : ℕ
  v2 : ℕ
  v3 : ℕ
deriving DecidableEq

/-- One sipround of siphash.c. -/
def sipround (s : SipState) : SipState :=
  let v0 := add64 s.v0 s.v1
  let v1 := rotl64 s.v1 13 ^^^ v0
  let v0 := rotl64 v0 32
  let v2 := add64 s.v2 s.v3
  let v3 := rotl64 s.v3 16 ^^^ v2
  let v0 := add64 v0 v3
  let v3 := rotl64 v3 21 ^^^ v0
  let v2 := add64 v2 v1
  let v1 := rotl64 v1 17 ^^^ v2
  let v2 := rotl64 v2 32
  SipState.mk v0 v1 v2 v3

/-- The full 8-byte blocks of the message (the loop up to
    end = m + (len & ~7) in siphash24). -/
def sipFullBlocks (m : List ℕ) : List (List ℕ) :=
  (List.range (m.length / 8)).map (fun i => ((m.drop (8 * i)).take 8))

/-- Compression of one full block: v3 ^= mi; two siprounds; v0 ^= mi. -/
def sipCompressBlock (s : SipState) (blk : List ℕ) : SipState :=
  let mi := u8to64_le blk
  let s1 : SipState := SipState.mk s.v0 s.v1 s.v2 (s.v3 ^^^ mi)
  let s2 := sipround (sipround s1)
  SipState.mk (s2.v0 ^^^ mi) s2.v1 s2.v2 s2.v3

/-- The length-tagged final word b of siphash24: b = len << 56 OR-ed with the
    trailing len % 8 bytes, where the switch of the source places byte
    m[len - j] at bit offset 8*(j-1) for j = 1 .. left. -/
def sipTailWord (m : List ℕ) : ℕ :=
  let len := m.length
  let left := len % 8
  (List.range left).foldl
    (fun b j => b ||| (m.getD (len - 1 - j) 0 <<< (8 * j)))
    ((len <<< 56) % U64)

/-- Little-endian byte output of a 64-bit word (the out[0..7] stores of
    siphash24, each store being a uint8_t cast). -/
def le64Bytes (t : ℕ) : List ℕ :=
  [t % 256, (t >>> 8) % 256, (t >>> 16) % 256, (t >>> 24) % 256,
   (t >>> 32) % 256, (t >>> 40) % 256, (t >>> 48) % 256, (t >>> 56) % 256]

/-- siphash24 from siphash.c: SipHash-2-4 with a 64-bit tag, keyed by the
    16-byte key, returning the 8 tag bytes little-endian. -/
def siphash24 (m : List ℕ) (key : List ℕ) : List ℕ :=
  let k0 := u8to64_le (key.take 8)
  let k1 := u8to64_le (key.drop 8)
  let s0 : SipState := SipState.mk
    (0x736f6d6570736575 ^^^ k0) (0x646f72616e646f6d ^^^ k1)
    (0x6c7967656e657261 ^^^ k0) (0x7465646279746573 ^^^ k1)
  let s1 := (sipFullBlocks m).foldl sipCompressBlock s0
  let b := sipTailWord m
  let s2 : SipState := SipState.mk s1.v0 s1.v1 s1.v2 (s1.v3 ^^^ b)
  let s3 := sipround (sipround s2)
  let s4 : SipState := SipState.mk (s3.v0 ^^^ b) s3.v1 (s3.v2 ^^^ 0xff) s3.v3
  let s5 := sipround (sipround (sipround (sipround s4)))
  le64Bytes (s5.v0 ^^^ s5.v1 ^^^ s5.v2 ^^^ s5.v3)

/- ================================================================
   crypto_min.c (Gabriel_misogate/src/crypto_min.c)
   ================================================================ -/

/-- sip_to_16 from crypto_min.c: 16-byte subkey = siphash24(label) followed by
    siphash24(label with the 0xA5 domain-separator byte appended); the label
    copy into lab2 keeps at most 31 bytes of the label. -/
def sip_to_16 (key label : List ℕ) : List ℕ :=
  siphash24 label key ++ siphash24 (label.take 31 ++ [0xA5]) key

/-- kdf_split_keys from crypto_min.c: labels "ENC" / "MAC" followed by the
    node id and the version byte pair 0x00 0x01. -/
def kdf_split_keys (k_master : List ℕ) (node_id : ℕ) : List ℕ × List ℕ :=
  (sip_to_16 k_master [0x45, 0x4e, 0x43, node_id, 0x00, 0x01],
   sip_to_16 k_master [0x4d, 0x41, 0x43, node_id, 0x00, 0x01])

/-- Little-endian byte split of a 32-bit value (the uint8_t casts of the
    shifted value, as in keystream_from_seq and pack_sensor_payload). -/
def le32 (v : ℕ) : List ℕ :=
  [v % 256, (v >>> 8) % 256, (v >>> 16) % 256, (v >>> 24) % 256]

/-- keystream_from_seq from crypto_min.c: 8-byte blocks
    SipHash(K_enc, 'S' || tx_seq_le || block_le), concatenated and truncated
    to the requested length n. -/
def keystream_from_seq (n : ℕ) (K_enc : List ℕ) (tx_seq : ℕ) : List ℕ :=
  (((List.range ((n + 7) / 8)).map
      (fun blk => siphash24 (0x53 :: (le32 tx_seq ++ le32 blk)) K_enc)).flatten).take n

/- ================================================================
   packet.h / packet.c (misogate-prod/src/lora)
   ================================================================ -/

/-- MSG_TYPE_SENSOR from packet.h. -/
def MSG_TYPE_SENSOR : ℕ := 0x01

/-- SENSOR_PLAINTEXT_LEN from packet.h. -/
def SENSOR_PLAINTEXT_LEN : ℕ := 15

/-- TAG_LEN from packet.h. -/
def TAG_LEN : ℕ := 8

/-- SECURE_FRAME_LEN from packet.h (1 + 4 + 15 + 8 = 28). -/
def SECURE_FRAME_LEN : ℕ := 1 + 4 + SENSOR_PLAINTEXT_LEN + TAG_LEN

/-- struct sensor_frame from packet.h; the three field components and the
    temperature are signed (int32_t / int16_t), kept as integers. -/
structure sensor_frame where
  node_id : ℕ
  tx_seq : ℕ
  x_uT_milli : ℤ
  y_uT_milli : ℤ
  z_uT_milli : ℤ
  temp_c_times10 : ℤ
deriving DecidableEq

/-- The C cast (uint32_t) applied to an int32 value: reduction mod 2^32. -/
def toUInt32bits (x : ℤ) : ℕ := (x % 2 ^ 32).toNat

/-- The C cast (uint16_t) applied to an int16 value: reduction mod 2^16. -/
def toUInt16bits (x : ℤ) : ℕ := (x % 2 ^ 16).toNat

/-- The C cast (int32_t) applied to a uint32 value: two's complement. -/
def toInt32 (u : ℕ) : ℤ := if u < 2 ^ 31 then (u : ℤ) else (u : ℤ) - 2 ^ 32

/-- The C cast (int16_t) applied to a uint16 value: two's complement. -/
def toInt16 (u : ℕ) : ℤ := if u < 2 ^ 15 then (u : ℤ) else (u : ℤ) - 2 ^ 16

/-- Little-endian 16-bit byte split (the two uint8_t stores of the
    temperature in pack_sensor_payload). -/
def le16 (v : ℕ) : List ℕ := [v % 256, (v >>> 8) % 256]

/-- Little-endian 32-bit recombination, written as in unpack_sensor_payload:
    p0 | p1 << 8 | p2 << 16 | p3 << 24. -/
def fromLE32 (b0 b1 b2 b3 : ℕ) : ℕ :=
  b0 ||| (b1 <<< 8) ||| (b2 <<< 16) ||| (b3 <<< 24)

/-- Little-endian 16-bit recombination from unpack_sensor_payload. -/
def fromLE16 (b0 b1 : ℕ) : ℕ := b0 ||| (b1 <<< 8)

/-- pack_sensor_payload from packet.h: the 15-byte plaintext is the sensor
    message-type byte followed by the three little-endian 32-bit field
    components and the little-endian 16-bit temperature. -/
def pack_sensor_payload (x y z temp : ℤ) : List ℕ :=
  MSG_TYPE_SENSOR ::
    (le32 (toUInt32bits x) ++ le32 (toUInt32bits y) ++ le32 (toUInt32bits z) ++
     le16 (toUInt16bits temp))

/-- unpack_sensor_payload from packet.h, with the node id and sequence that
    packet_parse_secure_frame_encmac has already written into the output
    struct before calling it; returns none when the message-type byte is not
    MSG_TYPE_SENSOR. -/
def unpack_sensor_payload (p : List ℕ) (nid seq : ℕ) : Option sensor_frame :=
  if p.getD 0 0 ≠ MSG_TYPE_SENSOR then none
  else some
    { node_id := nid
      tx_seq := seq
      x_uT_milli := toInt32 (fromLE32 (p.getD 1 0) (p.getD 2 0) (p.getD 3 0) (p.getD 4 0))
      y_uT_milli := toInt32 (fromLE32 (p.getD 5 0) (p.getD 6 0) (p.getD 7 0) (p.getD 8 0))
      z_uT_milli := toInt32 (fromLE32 (p.getD 9 0) (p.getD 10 0) (p.getD 11 0) (p.getD 12 0))
      temp_c_times10 := toInt16 (fromLE16 (p.getD 13 0) (p.getD 14 0)) }

/-- NODE_MASTER_KEY from packet.c. -/
def NODE_MASTER_KEY : List ℕ :=
  [0x4d, 0x69, 0x73, 0x6f, 0x4b, 0x65, 0x79, 0x21,
   0x10, 0x22, 0x33, 0x44, 0x55, 0x66, 0x77, 0x88]

/-- The replay table last_seq_seen of packet.c: one uint32 counter per node
    id byte, all initialized to zero; modelled as a function from the index
    byte to the stored sequence number. -/
def ReplayTable : Type := ℕ → ℕ

/-- The initial (all-zero) replay table (static initialization in C). -/
def initialReplayTable : ReplayTable := fun _ => 0

/-- The index at which packet_parse_secure_frame_encmac reads and writes the
    replay table: the first byte of the frame. -/
def parse_replay_index (input : List ℕ) : ℕ := input.getD 0 0

/-- packet_parse_secure_frame_encmac from packet.c, generalized over the
    master key constant (packet.c fixes it to NODE_MASTER_KEY); the replay
    table is threaded explicitly.  Returns the parsed frame (none on any
    failure) and the replay table after the call. -/
def packet_parse_secure_frame_encmac_keyed (key : List ℕ) (input : List ℕ)
    (st : ReplayTable) : Option sensor_frame × ReplayTable :=
  if input.length < SECURE_FRAME_LEN then (none, st)
  else
    let node_id := parse_replay_index input
    let tx_seq := fromLE32 (input.getD 1 0) (input.getD 2 0) (input.getD 3 0) (input.getD 4 0)
    let ct := (input.drop 5).take SENSOR_PLAINTEXT_LEN
    let tag := (input.drop (5 + SENSOR_PLAINTEXT_LEN)).take TAG_LEN
    let keys := kdf_split_keys key node_id
    let mac_input := node_id :: input.getD 1 0 :: input.getD 2 0 ::
      input.getD 3 0 :: input.getD 4 0 :: ct
    let calcTag := siphash24 mac_input keys.2
    if calcTag ≠ tag then (none, st)
    else if tx_seq ≤ st node_id then (none, st)
    else
      let st' : ReplayTable := Function.update st node_id tx_seq
      let ks := keystream_from_seq SENSOR_PLAINTEXT_LEN keys.1 tx_seq
      let pt := ct.zipWith (· ^^^ ·) ks
      (unpack_sensor_payload pt node_id tx_seq, st')

/-- packet_parse_secure_frame_encmac from packet.c (with its fixed master
    key). -/
def packet_parse_secure_frame_encmac (input : List ℕ) (st : ReplayTable) :
    Option sensor_frame × ReplayTable :=
  packet_parse_secure_frame_encmac_keyed NODE_MASTER_KEY input st

/-- Modelled from the spec: the node-side encode contract of section 4.1
    ("Encode (node side, out of scope but defines the contract the decode
    side must match)").  The node-side assembly code is not part of this
    tree; the frame is built from the in-tree primitives exactly as the spec
    prescribes: 1-byte node id, 4-byte little-endian sequence, ciphertext =
    plaintext XOR keystream_from_seq(K_enc, seq), and the siphash24 tag under
    K_mac over (node id, little-endian sequence, ciphertext). -/
def build_secure_frame_encmac (key : List ℕ) (nid seq : ℕ) (pt : List ℕ) :
    List ℕ :=
  let keys := kdf_split_keys key nid
  let ct := pt.zipWith (· ^^^ ·) (keystream_from_seq pt.length keys.1 seq)
  let tag := siphash24 (nid :: (le32 seq ++ ct)) keys.2
  nid :: (le32 seq ++ (ct ++ tag))


/- ================================================================
   Shared data model (lora.h / calibration.h)
   ================================================================ -/

/-- MAX_NODES from lora.h. -/
def MAX_NODES : ℕ := 3

/-- struct vec3_i32 from lora.h (int32_t components, in milli-microtesla). -/
structure vec3_i32 where
  x : ℤ
  y : ℤ
  z : ℤ
deriving DecidableEq

/-- struct node_state from lora.h: per-node runtime state at the gateway. -/
structure node_state where
  have_baseline : Bool
  baseline_count : ℕ
  baseline_sum_x : ℤ
  baseline_sum_y : ℤ
  baseline_sum_z : ℤ
  baseline_B : vec3_i32
  baseline_absB : ℤ
  last_B : vec3_i32
  last_B_mag : vec3_i32
  last_absB : ℤ
  last_dAbsB : ℤ
  last_seq : ℕ

/-- struct lora_position from lora.h (x, y in 0-1000, plus a validity flag). -/
structure lora_position where
  x : ℤ
  y : ℤ
  valid : Bool
deriving DecidableEq

/-- calib_state_t from lora.h. -/
inductive calib_state_t where
  | CALIB_STATE_IDLE
  | CALIB_STATE_BASELINE
  | CALIB_STATE_WAITING_INPUT
  | CALIB_STATE_RUNNING
deriving DecidableEq

/- ================================================================
   lora.c (misogate-prod/src/lora/lora.c)
   ================================================================ -/

/-- The node-id range guard at the top of process_frame (lora.c): a frame is
    processed further only when its node id is neither 0 nor greater than
    MAX_NODES; otherwise process_frame returns at once, touching no state. -/
def process_frame_node_accepted (nid : ℕ) : Bool :=
  !(nid == 0 || decide (MAX_NODES < nid))

/-- The static initializer of current_position in lora.c. -/
def initial_current_position : lora_position :=
  { x := 0, y := 0, valid := false }

/-- The clamp to the 0-1000 range that process_frame applies to each axis of
    an estimate before storing it in current_position. -/
def clamp_0_1000 (v : ℤ) : ℤ :=
  if v < 0 then 0 else if v > 1000 then 1000 else v

/-- The position-store step at the end of process_frame (lora.c): when the
    estimator produced a position (here already truncated to integers, the
    C (int) casts), both coordinates are clamped to 0-1000 and stored with
    valid = true under the position mutex; when no estimate was produced the
    stored position is left unchanged. -/
def process_frame_store_position (est : Option (ℤ × ℤ))
    (cur : lora_position) : lora_position :=
  match est with
  | none => cur
  | some (px, py) =>
      { x := clamp_0_1000 px, y := clamp_0_1000 py, valid := true }

/-- struct calib_point as defined locally in lora.c (scalar per-node
    readings); the per-node arrays become functions of the node id. -/
structure lora_calib_point where
  x : ℤ
  y : ℤ
  node_absB : ℕ → ℤ
  node_valid : ℕ → Bool
  reading_count : ℕ → ℕ
  reading_sum : ℕ → ℤ

/-- The node positions table node_pos of lora.c.  The initializer lists five
    entries for a MAX_NODES + 1 = 4 element array; C drops the excess
    element, so indices 0..3 hold the first four initializers. -/
def lora_node_pos : ℕ → ℝ × ℝ := fun i =>
  match i with
  | 1 => ((0 : ℝ), (0 : ℝ))
  | 2 => ((0 : ℝ), (1000 : ℝ))
  | 3 => ((500 : ℝ), (500 : ℝ))
  | _ => ((0 : ℝ), (0 : ℝ))

/-- estimate_position_calibrated from lora.c: inverse-distance weighted
    interpolation over the scalar readings of the calibration points. -/
noncomputable def estimate_position_calibrated (nodes : ℕ → node_state)
    (pts : List lora_calib_point) : Option (ℝ × ℝ) :=
  if pts.length < 2 then none
  else
    let step := fun (acc : ℝ × ℝ × ℝ) (cp : lora_calib_point) =>
      let d := (List.range' 1 MAX_NODES).foldl
        (fun (a : ℝ × ℕ) nid =>
          if cp.node_valid nid = false ∨ (nodes nid).have_baseline = false then a
          else
            let diff : ℝ := (((nodes nid).last_absB - cp.node_absB nid : ℤ) : ℝ)
            (a.1 + diff * diff, a.2 + 1))
        ((0 : ℝ), (0 : ℕ))
      if d.2 < 2 then acc
      else
        let dist_sq := d.1 / (d.2 : ℝ)
        let dist_sq := if dist_sq < 1 then 1 else dist_sq
        let w := 1 / dist_sq
        (acc.1 + w, acc.2.1 + w * (cp.x : ℝ), acc.2.2 + w * (cp.y : ℝ))
    let r := pts.foldl step ((0 : ℝ), (0 : ℝ), (0 : ℝ))
    if r.1 ≤ 0 then none else some (r.2.1 / r.1, r.2.2 / r.1)

/-- anomaly_weight from lora.c: cubic weight in the absolute anomaly. -/
noncomputable def anomaly_weight (dAbs : ℤ) : ℝ :=
  let d := |(dAbs : ℝ)|
  if d < 1 then 0 else d * d * d

/-- estimate_position_anomaly from lora.c: weighted centroid of the node
    positions, weighted by the cubed anomaly magnitude. -/
noncomputable def estimate_position_anomaly (nodes : ℕ → node_state) :
    Option (ℝ × ℝ) :=
  let r := (List.range' 1 MAX_NODES).foldl
    (fun (acc : ℝ × ℝ × ℝ × ℕ) nid =>
      if (nodes nid).have_baseline = false then acc
      else
        let w := anomaly_weight (nodes nid).last_dAbsB
        if w ≤ 0 then acc
        else
          (acc.1 + w, acc.2.1 + w * (lora_node_pos nid).1,
           acc.2.2.1 + w * (lora_node_pos nid).2, acc.2.2.2 + 1))
    ((0 : ℝ), (0 : ℝ), (0 : ℝ), (0 : ℕ))
  if r.2.2.2 < 2 ∨ r.1 ≤ 0 then none
  else some (r.2.1 / r.1, r.2.2.1 / r.1)

/-- estimate_position_2D from lora.c — the estimator actually invoked by
    process_frame for every accepted frame in the running state: the
    calibrated interpolation when at least 2 calibration points exist, the
    anomaly-based weighted centroid otherwise. -/
noncomputable def lora_estimate_position_2D (nodes : ℕ → node_state)
    (pts : List lora_calib_point) : Option (ℝ × ℝ) :=
  if 2 ≤ pts.length then estimate_position_calibrated nodes pts
  else estimate_position_anomaly nodes

/- ================================================================
   calibration.h / calibration.c (misogate-prod/src/lora)
   ================================================================ -/

/-- MAX_CALIB_POINTS from calibration.h. -/
def MAX_CALIB_POINTS : ℕ := 20

/-- BASELINE_READINGS_REQUIRED from calibration.h. -/
def BASELINE_READINGS_REQUIRED : ℕ := 10

/-- CALIB_READINGS_PER_POINT from calibration.h. -/
def CALIB_READINGS_PER_POINT : ℕ := 5

/-- The C cast (int32_t) applied to a wider signed value: two's complement
    wrap-around into the int32 range. -/
def int32cast (v : ℤ) : ℤ := (v + 2 ^ 31) % 2 ^ 32 - 2 ^ 31

/-- struct baseline_data from calibration.h. -/
structure baseline_data where
  valid : Bool
  readings_collected : ℕ
  sum_x : ℤ
  sum_y : ℤ
  sum_z : ℤ
  B_ambient : vec3_i32
deriving DecidableEq

/-- A zeroed baseline_data (the memset initialization / RESTART state). -/
def initial_baseline_data : baseline_data :=
  { valid := false, readings_collected := 0, sum_x := 0, sum_y := 0,
    sum_z := 0, B_ambient := { x := 0, y := 0, z := 0 } }

/-- The baseline-phase body of calibration_process_reading_3d for one node
    (calibration.c, state CALIB_STATE_BASELINE): while the node's baseline
    is not yet valid the raw reading is added to the axis accumulators and
    the count is incremented; as soon as the count reaches
    BASELINE_READINGS_REQUIRED the ambient field is set to the truncated
    integer quotient of each 64-bit accumulator by the count (with the
    int32_t store cast) and the baseline becomes valid; once valid, the
    reading is ignored. -/
def baseline_step (bd : baseline_data) (B : vec3_i32) : baseline_data :=
  if bd.valid then bd
  else
    let sx := bd.sum_x + B.x
    let sy := bd.sum_y + B.y
    let sz := bd.sum_z + B.z
    let n := bd.readings_collected + 1
    if BASELINE_READINGS_REQUIRED ≤ n then
      { valid := true, readings_collected := n, sum_x := sx, sum_y := sy,
        sum_z := sz,
        B_ambient := { x := int32cast (sx.tdiv n), y := int32cast (sy.tdiv n),
                       z := int32cast (sz.tdiv n) } }
    else
      { valid := false, readings_collected := n, sum_x := sx, sum_y := sy,
        sum_z := sz, B_ambient := bd.B_ambient }

/-- check_all_baselines_ready from calibration.c: at least 2 of the nodes
    1..MAX_NODES have a valid baseline. -/
def check_all_baselines_ready (bl : ℕ → baseline_data) : Bool :=
  decide (2 ≤ (List.range' 1 MAX_NODES).countP (fun i => (bl i).valid))

/-- The calibration-module state owned by calibration.c (g_calib_state,
    g_mqtt_publish_enabled, g_calib_point_count, g_current_calib_idx,
    g_baselines, and the coordinates of g_calib_points). -/
structure calib_ctx where
  state : calib_state_t
  mqtt_publish_enabled : Bool
  calib_point_count : ℕ
  current_calib_idx : ℤ
  baselines : ℕ → baseline_data
  points : List (ℤ × ℤ)

/-- The operator console commands understood by console_input_thread in
    calibration.c (after upper-casing); a coordinate pair is a command that
    parses as two integers, anything else is unknown. -/
inductive console_cmd where
  | START
  | STATUS
  | DONE
  | RESTART
  | CLEAR
  | coords (x y : ℤ)
  | unknown
deriving DecidableEq

/-- The command dispatch of console_input_thread in calibration.c.  In the
    baseline phase STATUS prints, DONE moves to the position-input phase
    only once check_all_baselines_ready holds, and RESTART zeroes every
    baseline.  In the position-input phase START unconditionally enters
    CALIB_STATE_RUNNING and enables publishing, STATUS prints, CLEAR drops
    all points, an in-range coordinate pair opens a new point (when the
    table is not full), and anything else (including DONE / RESTART, which
    fail the coordinate parse) is rejected with a usage message.  In the
    other states the thread handles no commands. -/
def console_command (ctx : calib_ctx) (cmd : console_cmd) : calib_ctx :=
  match ctx.state with
  | calib_state_t.CALIB_STATE_BASELINE =>
      match cmd with
      | console_cmd.STATUS => ctx
      | console_cmd.DONE =>
          if check_all_baselines_ready ctx.baselines then
            { ctx with state := calib_state_t.CALIB_STATE_WAITING_INPUT }
          else ctx
      | console_cmd.RESTART =>
          { ctx with baselines := fun _ => initial_baseline_data }
      | _ => ctx
  | calib_state_t.CALIB_STATE_WAITING_INPUT =>
      match cmd with
      | console_cmd.START =>
          { ctx with state := calib_state_t.CALIB_STATE_RUNNING,
                     mqtt_publish_enabled := true,
                     current_calib_idx := -1 }
      | console_cmd.STATUS => ctx
      | console_cmd.CLEAR =>
          { ctx with calib_point_count := 0, current_calib_idx := -1,
                     points := [] }
      | console_cmd.coords x y =>
          if x < 0 ∨ 1000 < x ∨ y < 0 ∨ 1000 < y then ctx
          else if MAX_CALIB_POINTS ≤ ctx.calib_point_count then ctx
          else
            { ctx with points := ctx.points ++ [(x, y)],
                       current_calib_idx := (ctx.calib_point_count : ℤ),
                       calib_point_count := ctx.calib_point_count + 1 }
      | _ => ctx
  | _ => ctx

/- ================================================================
   position.h / position.c (misogate-prod/src/lora)
   ================================================================ -/

/-- MAGNET_PLANE_HEIGHT_Z0 from position.h. -/
def MAGNET_PLANE_HEIGHT_Z0 : ℝ := 20

/-- GN_MAX_ITERATIONS from position.h. -/
def GN_MAX_ITERATIONS : ℕ := 20

/-- GN_CONVERGENCE_THRESHOLD from position.h. -/
noncomputable def GN_CONVERGENCE_THRESHOLD : ℝ := 0.1

/-- GN_DAMPING_FACTOR from position.h. -/
noncomputable def GN_DAMPING_FACTOR : ℝ := 0.5

/-- struct vec3_f from lora.h (float components, embedded over ℝ). -/
structure vec3_f where
  x : ℝ
  y : ℝ
  z : ℝ

/-- struct sensor_pos from position.h. -/
structure sensor_pos where
  x : ℝ
  y : ℝ
  z : ℝ

/-- struct position_estimate from position.h (the valid field is never
    written by position_estimate_dipole and is omitted). -/
structure position_estimate where
  x : ℝ
  y : ℝ
  M : ℝ
  error : ℝ
  iterations : ℕ
  converged : Bool

/-- The sensor position table g_sensor_pos of position.c (the static
    initializer, indices 0..MAX_NODES; index 0 is unused and equals the
    first entry). -/
def g_sensor_pos : ℕ → sensor_pos := fun i =>
  match i with
  | 1 => { x := 500, y := 1000, z := 0 }
  | 2 => { x := 1000, y := 0, z := 0 }
  | 3 => { x := 0, y := 0, z := 0 }
  | _ => { x := 500, y := 1000, z := 0 }

/-- The dipole orientation g_m_hat of position.c (north pole up). -/
def g_m_hat : vec3_f := { x := 0, y := 0, z := 1 }

/-- g_z0 from position.c. -/
def g_z0 : ℝ := MAGNET_PLANE_HEIGHT_Z0

/-- vec3_dot from position.c. -/
def vec3_dot (a b : vec3_f) : ℝ := a.x * b.x + a.y * b.y + a.z * b.z

/-- vec3_norm from position.c. -/
noncomputable def vec3_norm (v : vec3_f) : ℝ :=
  Real.sqrt (v.x * v.x + v.y * v.y + v.z * v.z)

/-- The magnitude of a node's magnet-only field as computed inside
    position_estimate_triangulation (the three int32 components cast to
    float, then the Euclidean norm). -/
noncomputable def node_B_magnitude (n : node_state) : ℝ :=
  Real.sqrt ((n.last_B_mag.x : ℝ) * (n.last_B_mag.x : ℝ) +
    (n.last_B_mag.y : ℝ) * (n.last_B_mag.y : ℝ) +
    (n.last_B_mag.z : ℝ) * (n.last_B_mag.z : ℝ))

/-- The clamp of each output axis to the 0-1000 range at the end of
    position_estimate_triangulation. -/
noncomputable def clampR_0_1000 (v : ℝ) : ℝ :=
  if v < 0 then 0 else if v > 1000 then 1000 else v

/-- The accumulator of the triangulation loop: running weight sum, weighted
    coordinate sums and the number of contributing sensors. -/
structure tri_acc where
  sum_weights : ℝ
  weighted_x : ℝ
  weighted_y : ℝ
  valid_sensors : ℕ

/-- position_estimate_triangulation from position.c: for every node
    1..MAX_NODES with a valid baseline whose magnet-only field magnitude is
    at least the 100 milli-uT noise floor, the fixed sensor position is
    accumulated with weight equal to the magnitude; with fewer than 2
    contributing sensors (or a non-positive weight sum) the estimate fails,
    otherwise the weighted average is clamped to 0-1000 on both axes. -/
noncomputable def position_estimate_triangulation (nodes : ℕ → node_state) :
    Option (ℝ × ℝ) :=
  let r := (List.range' 1 MAX_NODES).foldl
    (fun (acc : tri_acc) i =>
      if (nodes i).have_baseline = false then acc
      else
        let B_magnitude := node_B_magnitude (nodes i)
        if B_magnitude < 100 then acc
        else
          let weight := B_magnitude
          let sensor := g_sensor_pos i
          { sum_weights := acc.sum_weights + weight,
            weighted_x := acc.weighted_x + weight * sensor.x,
            weighted_y := acc.weighted_y + weight * sensor.y,
            valid_sensors := acc.valid_sensors + 1 })
    { sum_weights := 0, weighted_x := 0, weighted_y := 0, valid_sensors := 0 }
  if r.valid_sensors < 2 ∨ r.sum_weights ≤ 0 then none
  else
    some (clampR_0_1000 (r.weighted_x / r.sum_weights),
          clampR_0_1000 (r.weighted_y / r.sum_weights))

/-- struct calib_point from calibration.h (3D per-node averages plus the
    legacy scalar fields); per-node arrays become functions of the node
    id. -/
structure calib_point where
  x : ℤ
  y : ℤ
  node_B_mag : ℕ → vec3_i32
  node_valid : ℕ → Bool
  reading_count : ℕ → ℕ
  sum_x : ℕ → ℤ
  sum_y : ℕ → ℤ
  sum_z : ℕ → ℤ
  node_absB : ℕ → ℤ
  reading_sum : ℕ → ℤ

/-- position_estimate_lookup from position.c: inverse-distance weighted
    interpolation in 3-axis field space over the calibration points (the
    calib_points == NULL check of the C signature has no counterpart for a
    list argument). -/
noncomputable def position_estimate_lookup (nodes : ℕ → node_state)
    (calib_points : List calib_point) : Option (ℝ × ℝ) :=
  if calib_points.length < 2 then none
  else
    let step := fun (acc : ℝ × ℝ × ℝ) (cp : calib_point) =>
      let d := (List.range' 1 MAX_NODES).foldl
        (fun (a : ℝ × ℕ) nid =>
          if cp.node_valid nid = false ∨ (nodes nid).have_baseline = false then a
          else
            let dx : ℝ := (((nodes nid).last_B_mag.x - (cp.node_B_mag nid).x : ℤ) : ℝ)
            let dy : ℝ := (((nodes nid).last_B_mag.y - (cp.node_B_mag nid).y : ℤ) : ℝ)
            let dz : ℝ := (((nodes nid).last_B_mag.z - (cp.node_B_mag nid).z : ℤ) : ℝ)
            (a.1 + dx * dx + dy * dy + dz * dz, a.2 + 1))
        ((0 : ℝ), (0 : ℕ))
      if d.2 < 2 then acc
      else
        let dist_sq := d.1 / (d.2 : ℝ)
        let dist_sq := if dist_sq < 1 then 1 else dist_sq
        let w := 1 / dist_sq
        (acc.1 + w, acc.2.1 + w * (cp.x : ℝ), acc.2.2 + w * (cp.y : ℝ))
    let r := calib_points.foldl step ((0 : ℝ), (0 : ℝ), (0 : ℝ))
    if r.1 ≤ 0 then none else some (r.2.1 / r.1, r.2.2 / r.1)

/-- position_estimate_2D from position.c: triangulation first; when it
    succeeds and at least 2 calibration points exist and the lookup
    succeeds, blend 70 percent triangulation with 30 percent lookup; when
    triangulation fails, fall back to the lookup alone (which itself needs
    at least 2 points); otherwise no estimate. -/
noncomputable def position_estimate_2D (nodes : ℕ → node_state)
    (calib_points : List calib_point) : Option (ℝ × ℝ) :=
  match position_estimate_triangulation nodes with
  | some (tx, ty) =>
      if 2 ≤ calib_points.length then
        match position_estimate_lookup nodes calib_points with
        | some (lx, ly) =>
            some (0.7 * tx + 0.3 * lx, 0.7 * ty + 0.3 * ly)
        | none => some (tx, ty)
      else some (tx, ty)
  | none =>
      if 2 ≤ calib_points.length then
        position_estimate_lookup nodes calib_points
      else none

/-- position_compute_dipole_field from position.c: the dipole field model
    with the two division guards clamping the norm and the cubed norm away
    from zero. -/
noncomputable def position_compute_dipole_field (magnet_x magnet_y M : ℝ)
    (sensor : sensor_pos) : vec3_f :=
  let r : vec3_f :=
    { x := sensor.x - magnet_x, y := sensor.y - magnet_y, z := sensor.z - g_z0 }
  let r_norm0 := vec3_norm r
  let r_norm := if r_norm0 < 1 then 1 else r_norm0
  let r_hat : vec3_f := { x := r.x / r_norm, y := r.y / r_norm, z := r.z / r_norm }
  let m_hat : vec3_f := { x := g_m_hat.x, y := g_m_hat.y, z := g_m_hat.z }
  let m_dot_r := vec3_dot m_hat r_hat
  let B_unit : vec3_f :=
    { x := 3 * m_dot_r * r_hat.x - m_hat.x,
      y := 3 * m_dot_r * r_hat.y - m_hat.y,
      z := 3 * m_dot_r * r_hat.z - m_hat.z }
  let r_cubed0 := r_norm * r_norm * r_norm
  let r_cubed := if r_cubed0 < 1 then 1 else r_cubed0
  let scale := M / r_cubed
  { x := scale * B_unit.x, y := scale * B_unit.y, z := scale * B_unit.z }

/-- position_compute_jacobian from position.c: symmetric finite differences,
    +-1 position unit in x and y and +-max(0.001 |M|, 1) in M;
    J c p = the derivative of field component c in parameter p. -/
noncomputable def position_compute_jacobian (magnet_x magnet_y M : ℝ)
    (sensor : sensor_pos) : Fin 3 → Fin 3 → ℝ :=
  let eps_pos : ℝ := 1
  let eps_M := 0.001 * |M|
  let eps_M_actual := max eps_M 1
  let Bpx := position_compute_dipole_field (magnet_x + eps_pos) magnet_y M sensor
  let Bmx := position_compute_dipole_field (magnet_x - eps_pos) magnet_y M sensor
  let Bpy := position_compute_dipole_field magnet_x (magnet_y + eps_pos) M sensor
  let Bmy := position_compute_dipole_field magnet_x (magnet_y - eps_pos) M sensor
  let BpM := position_compute_dipole_field magnet_x magnet_y (M + eps_M_actual) sensor
  let BmM := position_compute_dipole_field magnet_x magnet_y (M - eps_M_actual) sensor
  ![![(Bpx.x - Bmx.x) / (2 * eps_pos), (Bpy.x - Bmy.x) / (2 * eps_pos),
      (BpM.x - BmM.x) / (2 * eps_M_actual)],
    ![(Bpx.y - Bmx.y) / (2 * eps_pos), (Bpy.y - Bmy.y) / (2 * eps_pos),
      (BpM.y - BmM.y) / (2 * eps_M_actual)],
    ![(Bpx.z - Bmx.z) / (2 * eps_pos), (Bpy.z - Bmy.z) / (2 * eps_pos),
      (BpM.z - BmM.z) / (2 * eps_M_actual)]]

/-- solve_3x3 from position.c: Cramer-rule solve of a 3x3 system, failing
    (none) when the absolute determinant is below 1e-10. -/
noncomputable def solve_3x3 (A : Fin 3 → Fin 3 → ℝ) (b : Fin 3 → ℝ) :
    Option (Fin 3 → ℝ) :=
  let det := A 0 0 * (A 1 1 * A 2 2 - A 1 2 * A 2 1) -
             A 0 1 * (A 1 0 * A 2 2 - A 1 2 * A 2 0) +
             A 0 2 * (A 1 0 * A 2 1 - A 1 1 * A 2 0)
  if |det| < 1e-10 then none
  else
    let inv_det := 1 / det
    let Ainv : Fin 3 → Fin 3 → ℝ :=
      ![![(A 1 1 * A 2 2 - A 1 2 * A 2 1) * inv_det,
          (A 0 2 * A 2 1 - A 0 1 * A 2 2) * inv_det,
          (A 0 1 * A 1 2 - A 0 2 * A 1 1) * inv_det],
        ![(A 1 2 * A 2 0 - A 1 0 * A 2 2) * inv_det,
          (A 0 0 * A 2 2 - A 0 2 * A 2 0) * inv_det,
          (A 0 2 * A 1 0 - A 0 0 * A 1 2) * inv_det],
        ![(A 1 0 * A 2 1 - A 1 1 * A 2 0) * inv_det,
          (A 0 1 * A 2 0 - A 0 0 * A 2 1) * inv_det,
          (A 0 0 * A 1 1 - A 0 1 * A 1 0) * inv_det]]
    some (fun i => Ainv i 0 * b 0 + Ainv i 1 * b 1 + Ainv i 2 * b 2)

/-- The per-iteration accumulation of the normal equations in
    position_estimate_dipole: J^T J, J^T r and the total squared error over
    every node with a valid baseline. -/
structure gn_acc where
  JtJ : Fin 3 → Fin 3 → ℝ
  Jtr : Fin 3 → ℝ
  total_error : ℝ

/-- The normal-equation accumulation loop of position_estimate_dipole. -/
noncomputable def gn_accumulate (nodes : ℕ → node_state) (theta : Fin 3 → ℝ) :
    gn_acc :=
  (List.range' 1 MAX_NODES).foldl
    (fun acc nid =>
      if (nodes nid).have_baseline = false then acc
      else
        let sensor := g_sensor_pos nid
        let B_measured : vec3_f :=
          { x := ((nodes nid).last_B_mag.x : ℝ),
            y := ((nodes nid).last_B_mag.y : ℝ),
            z := ((nodes nid).last_B_mag.z : ℝ) }
        let B_model := position_compute_dipole_field (theta 0) (theta 1) (theta 2) sensor
        let r : vec3_f :=
          { x := B_measured.x - B_model.x, y := B_measured.y - B_model.y,
            z := B_measured.z - B_model.z }
        let J := position_compute_jacobian (theta 0) (theta 1) (theta 2) sensor
        { JtJ := fun i j => acc.JtJ i j +
            (J 0 i * J 0 j + J 1 i * J 1 j + J 2 i * J 2 j),
          Jtr := fun i => acc.Jtr i + (J 0 i * r.x + J 1 i * r.y + J 2 i * r.z),
          total_error := acc.total_error + (r.x * r.x + r.y * r.y + r.z * r.z) })
    { JtJ := fun _ _ => 0, Jtr := fun _ => 0, total_error := 0 }

/-- The Gauss-Newton iteration loop of position_estimate_dipole: starting at
    iteration index iter, returns the final theta, the last_error value and
    the iteration index at which the loop stopped (GN_MAX_ITERATIONS when it
    ran to completion; the current index on a singular-matrix break, a
    convergence break or a divergence break). -/
noncomputable def gn_loop (nodes : ℕ → node_state) (iter : ℕ)
    (theta : Fin 3 → ℝ) (last_error : ℝ) : (Fin 3 → ℝ) × ℝ × ℕ :=
  if h : iter < GN_MAX_ITERATIONS then
    let acc := gn_accumulate nodes theta
    let damping := GN_DAMPING_FACTOR * acc.total_error
    let A : Fin 3 → Fin 3 → ℝ :=
      fun i j => if i = j then acc.JtJ i j + damping else acc.JtJ i j
    match solve_3x3 A acc.Jtr with
    | none => (theta, last_error, iter)
    | some delta =>
        let t0a := theta 0 + delta 0
        let t1a := theta 1 + delta 1
        let t2a := theta 2 + delta 2
        let t0b := if t0a < -100 then -100 else t0a
        let t0c := if t0b > 1100 then 1100 else t0b
        let t1b := if t1a < -100 then -100 else t1a
        let t1c := if t1b > 1100 then 1100 else t1b
        let t2b := if t2a < 100 then 100 else t2a
        let theta' : Fin 3 → ℝ := ![t0c, t1c, t2b]
        let pos_change := Real.sqrt (delta 0 * delta 0 + delta 1 * delta 1)
        if pos_change < GN_CONVERGENCE_THRESHOLD ∧ 2 < iter then
          (theta', last_error, iter)
        else if acc.total_error > last_error * 1.5 ∧ 3 < iter then
          (theta', last_error, iter)
        else gn_loop nodes (iter + 1) theta' acc.total_error
  else (theta, last_error, iter)
termination_by GN_MAX_ITERATIONS - iter
decreasing_by simp only [GN_MAX_ITERATIONS] at h ⊢; omega

/-- The initial guess of position_estimate_dipole when the caller-supplied
    guess is absent or not converged: the saved last estimate when that one
    converged, else the strongest-signal sensor position offset by 0.1 with
    the large fixed initial M, else the region center. -/
noncomputable def gn_default_theta (nodes : ℕ → node_state)
    (g_last : position_estimate) : Fin 3 → ℝ :=
  if g_last.converged = true then ![g_last.x, g_last.y, g_last.M]
  else
    let scan := (List.range' 1 MAX_NODES).foldl
      (fun (acc : ℝ × ℕ) i =>
        if (nodes i).have_baseline = true then
          let B2 := ((nodes i).last_B_mag.x : ℝ) * ((nodes i).last_B_mag.x : ℝ) +
                    ((nodes i).last_B_mag.y : ℝ) * ((nodes i).last_B_mag.y : ℝ) +
                    ((nodes i).last_B_mag.z : ℝ) * ((nodes i).last_B_mag.z : ℝ)
          if B2 > acc.1 then (B2, i) else acc
        else acc)
      ((-1 : ℝ), (0 : ℕ))
    if 0 < scan.2 then
      ![(g_sensor_pos scan.2).x + 0.1, (g_sensor_pos scan.2).y + 0.1, 1e10]
    else ![500, 500, 1e10]

/-- position_estimate_dipole from position.c, with the module-level warm
    start g_last_estimate threaded explicitly: returns the estimate (none
    when fewer than 2 nodes have valid baselines, in which case the C
    function returns false without writing the result) together with the
    g_last_estimate value after the call. -/
noncomputable def position_estimate_dipole (nodes : ℕ → node_state)
    (initial_guess : Option position_estimate) (g_last : position_estimate) :
    Option position_estimate × position_estimate :=
  if (List.range' 1 MAX_NODES).countP (fun i => (nodes i).have_baseline) < 2
  then (none, g_last)
  else
    let theta0 : Fin 3 → ℝ :=
      match initial_guess with
      | some g => if g.converged = true then ![g.x, g.y, g.M]
                  else gn_default_theta nodes g_last
      | none => gn_default_theta nodes g_last
    let out := gn_loop nodes 0 theta0 1e10
    let res : position_estimate :=
      { x := out.1 0, y := out.1 1, M := out.1 2, error := out.2.1,
        iterations := out.2.2,
        converged := decide (out.2.2 < GN_MAX_ITERATIONS) }
    (some res, if res.converged = true then res else g_last)

/- ================================================================
   The combination policy as the specification words it (section 4.3);
   reference definition for the refinement comparison of the running
   pipeline against the spec.
   ================================================================ -/

/-- Modelled from the spec: the combination policy of section 4.3 —
    triangulation first; when it succeeds and at least 2 calibration points
    exist, blend 0.7 triangulation + 0.3 lookup (triangulation alone when
    the lookup yields nothing); when triangulation fails, the lookup alone;
    when both fail, no estimate. -/
def combination_policy_spec (tri : Option (ℝ × ℝ)) (lookup : Option (ℝ × ℝ))
    (calib_count : ℕ) : Option (ℝ × ℝ) :=
  match tri with
  | some (tx, ty) =>
      if 2 ≤ calib_count then
        match lookup with
        | some (lx, ly) => some (0.7 * tx + 0.3 * lx, 0.7 * ty + 0.3 * ly)
        | none => some (tx, ty)
      else some (tx, ty)
  | none => if 2 ≤ calib_count then lookup else none

/- ================================================================
   Concrete states used by the closed witness / counterexample theorems
   ================================================================ -/

/-- A zeroed node_state (the memset initialization of g_nodes in lora.c). -/
def node_state0 : node_state :=
  { have_baseline := false, baseline_count := 0, baseline_sum_x := 0,
    baseline_sum_y := 0, baseline_sum_z := 0,
    baseline_B := { x := 0, y := 0, z := 0 }, baseline_absB := 0,
    last_B := { x := 0, y := 0, z := 0 },
    last_B_mag := { x := 0, y := 0, z := 0 }, last_absB := 0,
    last_dAbsB := 0, last_seq := 0 }

/-- Runtime state in which nodes 1 and 2 carry a magnet-only field of
    (0, 0, 100) milli-uT (magnitude 100, at the noise floor) and an anomaly
    of 100 milli-uT, node 3 has no baseline.  Used to separate the running
    pipeline from the documented blend policy. -/
def nodesC5 : ℕ → node_state := fun i =>
  match i with
  | 1 => { node_state0 with
           have_baseline := true
           last_B_mag := { x := 0, y := 0, z := 100 }
           last_dAbsB := 100 }
  | 2 => { node_state0 with
           have_baseline := true
           last_B_mag := { x := 0, y := 0, z := 100 }
           last_dAbsB := 100 }
  | _ => node_state0

/-- Runtime state with two equal-magnitude sensors (nodes 1 and 2), used as
    the concrete instance of the triangulation midpoint property. -/
def nodesC7 : ℕ → node_state := fun i =>
  match i with
  | 1 => { node_state0 with
           have_baseline := true
           last_B_mag := { x := 0, y := 0, z := 100 } }
  | 2 => { node_state0 with
           have_baseline := true
           last_B_mag := { x := 0, y := 0, z := 100 } }
  | _ => node_state0

/-- A calibration context in the position-input phase with zero calibration
    points; the concrete instance for the START transition. -/
def ctxC6 : calib_ctx :=
  { state := calib_state_t.CALIB_STATE_WAITING_INPUT
    mqtt_publish_enabled := false
    calib_point_count := 0
    current_calib_idx := -1
    baselines := fun _ => initial_baseline_data
    points := [] }

/-- A calibration context in the baseline phase whose baselines are all
    non-trivially populated; the concrete instance for the RESTART
    behavior. -/
def ctxC4 : calib_ctx :=
  { state := calib_state_t.CALIB_STATE_BASELINE
    mqtt_publish_enabled := false
    calib_point_count := 0
    current_calib_idx := -1
    baselines := fun _ =>
      { valid := true, readings_collected := 10, sum_x := 10, sum_y := 20,
        sum_z := 30, B_ambient := { x := 1, y := 2, z := 3 } }
    points := [] }

/-- Runtime state with two baseline-valid nodes whose magnet-only field is
    zero, used as the concrete singular-exit instance of the dipole
    solver. -/
def nodesC10 : ℕ → node_state := fun i =>
  match i with
  | 1 => { node_state0 with have_baseline := true }
  | 2 => { node_state0 with have_baseline := true }
  | _ => node_state0
theorem siphash24_length (m key : List ℕ) : (siphash24 m key).length = 8 := by
  simp [siphash24, le64Bytes]

theorem keystream_from_seq_length (n : ℕ) (K : List ℕ) (s : ℕ) :
    (keystream_from_seq n K s).length = n := by
  have hlen : (((List.range ((n + 7) / 8)).map
      (fun blk => siphash24 (0x53 :: (le32 s ++ le32 blk)) K)).flatten).length
      = 8 * ((n + 7) / 8) := by
    rw [List.length_flatten]
    induction (n + 7) / 8 with
    | zero => simp
    | succ k ih =>
        rw [List.range_succ, List.map_append]
        simp only [List.map_append, List.sum_append, ih]
        simp [siphash24_length, Nat.mul_succ]
  simp only [keystream_from_seq, List.length_take, hlen]
  omega

/- ================================================================
   Arithmetic bridge lemmas for the byte-level codec
   ================================================================ -/

/-- Bitwise-or of a value below 2^n with a value shifted left by n is plain
    addition (disjoint bit ranges). -/
theorem lor_shiftLeft_eq_add (b n : ℕ) {a : ℕ} (h : a < 2 ^ n) :
    a ||| (b <<< n) = a + b * 2 ^ n := by
  have hr : a + b * 2 ^ n = 2 ^ n * b + a := by ring
  apply Nat.eq_of_testBit_eq
  intro i
  rw [Nat.testBit_lor, Nat.testBit_shiftLeft, hr,
    Nat.testBit_mul_pow_two_add b h i]
  by_cases hi : i < n
  · simp [hi, show ¬ n ≤ i from not_le.mpr hi]
  · have ha : Nat.testBit a i = false :=
      Nat.testBit_lt_two_pow
        (lt_of_lt_of_le h (Nat.pow_le_pow_right (by norm_num) (le_of_not_lt hi)))
    simp [hi, ha, le_of_not_lt hi]

/-- Recombining the four little-endian bytes of a 32-bit value restores the
    value. -/
theorem fromLE32_le32 {v : ℕ} (hv : v < 2 ^ 32) :
    fromLE32 (v % 256) ((v >>> 8) % 256) ((v >>> 16) % 256) ((v >>> 24) % 256)
      = v := by
  unfold fromLE32
  rw [Nat.shiftRight_eq_div_pow, Nat.shiftRight_eq_div_pow,
    Nat.shiftRight_eq_div_pow]
  rw [lor_shiftLeft_eq_add _ 8 (by omega)]
  rw [lor_shiftLeft_eq_add _ 16 (by omega)]
  rw [lor_shiftLeft_eq_add _ 24 (by omega)]
  norm_num
  omega

/-- Recombining the two little-endian bytes of a 16-bit value restores the
    value. -/
theorem fromLE16_le16 {v : ℕ} (hv : v < 2 ^ 16) :
    fromLE16 (v % 256) ((v >>> 8) % 256) = v := by
  unfold fromLE16
  rw [Nat.shiftRight_eq_div_pow]
  rw [lor_shiftLeft_eq_add _ 8 (by omega)]
  norm_num
  omega

/-- int32 round trip through the uint32 bit pattern. -/
theorem toInt32_toUInt32bits {x : ℤ} (h1 : -(2 ^ 31) ≤ x) (h2 : x < 2 ^ 31) :
    toInt32 (toUInt32bits x) = x := by
  unfold toInt32 toUInt32bits
  split <;> omega

/-- int16 round trip through the uint16 bit pattern. -/
theorem toInt16_toUInt16bits {x : ℤ} (h1 : -(2 ^ 15) ≤ x) (h2 : x < 2 ^ 15) :
    toInt16 (toUInt16bits x) = x := by
  unfold toInt16 toUInt16bits
  split <;> omega

theorem toUInt32bits_lt (x : ℤ) : toUInt32bits x < 2 ^ 32 := by
  unfold toUInt32bits
  omega

theorem toUInt16bits_lt (x : ℤ) : toUInt16bits x < 2 ^ 16 := by
  unfold toUInt16bits
  omega

/-- XOR-ing a buffer twice with the same keystream restores it (the
    stream-cipher decryption in packet.c undoes the encryption of the encode
    contract). -/
theorem zipWith_xor_cancel :
    ∀ (a b : List ℕ), a.length ≤ b.length →
      (a.zipWith (· ^^^ ·) b).zipWith (· ^^^ ·) b = a
  | [], _, _ => by simp
  | x :: a, y :: b, h => by
      simp only [List.zipWith_cons_cons, Nat.xor_cancel_right, List.cons.injEq,
        true_and]
      exact zipWith_xor_cancel a b (by simpa using h)
/- ================================================================
   The decode-of-encode characterization
   ================================================================ -/

theorem build_secure_frame_parts (key : List ℕ) (nid seq : ℕ) (pt : List ℕ) :
    build_secure_frame_encmac key nid seq pt =
      nid :: (le32 seq ++
        ((pt.zipWith (· ^^^ ·)
            (keystream_from_seq pt.length (kdf_split_keys key nid).1 seq)) ++
         siphash24 (nid :: (le32 seq ++
            pt.zipWith (· ^^^ ·)
              (keystream_from_seq pt.length (kdf_split_keys key nid).1 seq)))
           (kdf_split_keys key nid).2)) := rfl

/-- Parsing a frame built per the encode contract: the MAC always verifies,
    and the outcome is decided by the replay check alone; on success the
    replay table is advanced at the node id and the decrypted plaintext is
    handed to unpack_sensor_payload. -/
theorem parse_build_eq (key : List ℕ) (nid seq : ℕ) (pt : List ℕ)
    (st : ReplayTable) (hpt : pt.length = SENSOR_PLAINTEXT_LEN)
    (hseq : seq < 2 ^ 32) :
    packet_parse_secure_frame_encmac_keyed key
      (build_secure_frame_encmac key nid seq pt) st
      = if seq ≤ st nid then (none, st)
        else (unpack_sensor_payload pt nid seq, Function.update st nid seq) := by
  have hpt15 : pt.length = 15 := hpt
  set ks := keystream_from_seq 15 (kdf_split_keys key nid).1 seq with hksdef
  have hks : ks.length = 15 := keystream_from_seq_length _ _ _
  set ct := pt.zipWith (· ^^^ ·) ks with hctdef
  have hct : ct.length = 15 := by
    rw [hctdef, List.length_zipWith, hks, hpt15]
    simp
  set tg := siphash24 (nid :: (seq % 256) :: ((seq >>> 8) % 256) ::
    ((seq >>> 16) % 256) :: ((seq >>> 24) % 256) :: ct)
    (kdf_split_keys key nid).2 with htgdef
  have htg : tg.length = 8 := siphash24_length _ _
  have hinput : build_secure_frame_encmac key nid seq pt
      = nid :: ((seq % 256) :: ((seq >>> 8) % 256) :: ((seq >>> 16) % 256) ::
          ((seq >>> 24) % 256) :: (ct ++ tg)) := by
    rw [build_secure_frame_parts, hpt15]
    simp only [le32, List.cons_append, List.nil_append, ← hksdef, ← hctdef]
  rw [hinput]
  have htake : (ct ++ tg).take 15 = ct := List.take_left' hct
  have hdrop : (ct ++ tg).drop 15 = tg := List.drop_left' hct
  have htaketg : tg.take 8 = tg := List.take_of_length_le (le_of_eq htg)
  have hseq4 : fromLE32 (seq % 256) ((seq >>> 8) % 256) ((seq >>> 16) % 256)
      ((seq >>> 24) % 256) = seq := fromLE32_le32 hseq
  have hcancel : ct.zipWith (· ^^^ ·) ks = pt := by
    rw [hctdef]
    exact zipWith_xor_cancel pt ks (by rw [hks, hpt15])
  unfold packet_parse_secure_frame_encmac_keyed parse_replay_index
  simp only [SECURE_FRAME_LEN, SENSOR_PLAINTEXT_LEN, TAG_LEN,
    List.length_cons, List.length_append, hct, htg,
    List.getD_cons_zero, List.getD_cons_succ,
    List.drop_succ_cons, List.drop_zero, htake, hdrop, htaketg, hseq4,
    ← htgdef, ← hksdef, hcancel]
  norm_num

/-- Unpacking a packed sensor payload restores all four fields, for values in
    the int32 / int16 ranges. -/
theorem unpack_pack (nid seq : ℕ) (x y z temp : ℤ)
    (hx1 : -(2 ^ 31) ≤ x) (hx2 : x < 2 ^ 31)
    (hy1 : -(2 ^ 31) ≤ y) (hy2 : y < 2 ^ 31)
    (hz1 : -(2 ^ 31) ≤ z) (hz2 : z < 2 ^ 31)
    (ht1 : -(2 ^ 15) ≤ temp) (ht2 : temp < 2 ^ 15) :
    unpack_sensor_payload (pack_sensor_payload x y z temp) nid seq
      = some { node_id := nid, tx_seq := seq, x_uT_milli := x, y_uT_milli := y,
               z_uT_milli := z, temp_c_times10 := temp } := by
  unfold pack_sensor_payload unpack_sensor_payload
  simp only [le32, le16, MSG_TYPE_SENSOR, List.cons_append, List.nil_append,
    List.getD_cons_zero, List.getD_cons_succ]
  rw [fromLE32_le32 (toUInt32bits_lt x), fromLE32_le32 (toUInt32bits_lt y),
    fromLE32_le32 (toUInt32bits_lt z), fromLE16_le16 (toUInt16bits_lt temp)]
  rw [toInt32_toUInt32bits hx1 hx2, toInt32_toUInt32bits hy1 hy2,
    toInt32_toUInt32bits hz1 hz2, toInt16_toUInt16bits ht1 ht2]
  simp

theorem pack_sensor_payload_length (x y z temp : ℤ) :
    (pack_sensor_payload x y z temp).length = SENSOR_PLAINTEXT_LEN := by
  simp [pack_sensor_payload, le32, le16, SENSOR_PLAINTEXT_LEN]

/-- Claim C1: for every master key, node id, sequence number strictly greater
    than the stored replay value for that node, and in-range sensor payload,
    a 28-byte frame built per the encode contract (pack the 15-byte
    plaintext, XOR with keystream_from_seq(K_enc, sequence), append the
    siphash24 tag under K_mac over node id, little-endian sequence and
    ciphertext) parses successfully through
    packet_parse_secure_frame_encmac, reproducing node id, sequence, the
    three field components and the temperature exactly. -/
theorem C1_decode_of_encode (key : List ℕ) (nid seq : ℕ) (x y z temp : ℤ)
    (st : ReplayTable) (hreplay : st nid < seq) (hseq : seq < 2 ^ 32)
    (hx1 : -(2 ^ 31) ≤ x) (hx2 : x < 2 ^ 31)
    (hy1 : -(2 ^ 31) ≤ y) (hy2 : y < 2 ^ 31)
    (hz1 : -(2 ^ 31) ≤ z) (hz2 : z < 2 ^ 31)
    (ht1 : -(2 ^ 15) ≤ temp) (ht2 : temp < 2 ^ 15) :
    packet_parse_secure_frame_encmac_keyed key
      (build_secure_frame_encmac key nid seq (pack_sensor_payload x y z temp)) st
      = (some { node_id := nid, tx_seq := seq, x_uT_milli := x,
                y_uT_milli := y, z_uT_milli := z, temp_c_times10 := temp },
         Function.update st nid seq) := by
  rw [parse_build_eq key nid seq _ st (pack_sensor_payload_length x y z temp) hseq]
  rw [if_neg (not_le.mpr hreplay)]
  rw [unpack_pack nid seq x y z temp hx1 hx2 hy1 hy2 hz1 hz2 ht1 ht2]

set_option maxRecDepth 1000000 in
/-- Witness for C1: a concrete frame from node 1 with sequence 5 and payload
    (1300, -200, 7, -35) round-trips through the codec from the all-zero
    replay table, and the replay counter of node 1 afterwards holds 5. -/
theorem C1_decode_of_encode_witness :
    initialReplayTable 1 < 5 ∧ (5 : ℕ) < 2 ^ 32 ∧
    (packet_parse_secure_frame_encmac_keyed NODE_MASTER_KEY
      (build_secure_frame_encmac NODE_MASTER_KEY 1 5
        (pack_sensor_payload 1300 (-200) 7 (-35))) initialReplayTable).1
      = some { node_id := 1, tx_seq := 5, x_uT_milli := 1300,
               y_uT_milli := -200, z_uT_milli := 7, temp_c_times10 := -35 } ∧
    (packet_parse_secure_frame_encmac_keyed NODE_MASTER_KEY
      (build_secure_frame_encmac NODE_MASTER_KEY 1 5
        (pack_sensor_payload 1300 (-200) 7 (-35))) initialReplayTable).2 1 = 5 := by
  have h := C1_decode_of_encode NODE_MASTER_KEY 1 5 1300 (-200) 7 (-35)
    initialReplayTable (by decide) (by norm_num) (by norm_num) (by norm_num)
    (by norm_num) (by norm_num) (by norm_num) (by norm_num) (by norm_num)
    (by norm_num)
  refine ⟨by decide, by norm_num, ?_, ?_⟩
  · rw [h]
  · rw [h]
    simp [Function.update]

/-- A well-typed plaintext (sensor message-type byte) always unpacks. -/
theorem unpack_isSome {p : List ℕ} (h : p.getD 0 0 = MSG_TYPE_SENSOR)
    (nid s : ℕ) : (unpack_sensor_payload p nid s).isSome = true := by
  unfold unpack_sensor_payload
  rw [if_neg]
  · rfl
  · exact fun hc => hc h

/-- Claim C2: with authenticated, well-formed frames, acceptance by
    packet_parse_secure_frame_encmac is decided exactly by strict growth of
    the sequence number over the stored per-node value (initially zero), and
    acceptance stores the new value: replaying an accepted sequence or
    sending a smaller one is rejected; k then k+1 is accepted in that order;
    k then k+2 is accepted for both; k+2 then k+1 rejects the second
    frame. -/
theorem C2_replay_sequence_enforcement (key : List ℕ) (nid : ℕ)
    (pa pb : List ℕ) (k : ℕ)
    (hpa : pa.length = SENSOR_PLAINTEXT_LEN)
    (hpa0 : pa.getD 0 0 = MSG_TYPE_SENSOR)
    (hpb : pb.length = SENSOR_PLAINTEXT_LEN)
    (hpb0 : pb.getD 0 0 = MSG_TYPE_SENSOR)
    (hk0 : 0 < k) (hk : k + 2 < 2 ^ 32) :
    (∀ (s : ℕ) (t : ReplayTable), s < 2 ^ 32 →
      (((packet_parse_secure_frame_encmac_keyed key
          (build_secure_frame_encmac key nid s pa) t).1.isSome = true ↔
            t nid < s) ∧
       (t nid < s →
         (packet_parse_secure_frame_encmac_keyed key
           (build_secure_frame_encmac key nid s pa) t).2
             = Function.update t nid s) ∧
       (¬ t nid < s →
         packet_parse_secure_frame_encmac_keyed key
           (build_secure_frame_encmac key nid s pa) t = (none, t)))) ∧
    ((packet_parse_secure_frame_encmac_keyed key
        (build_secure_frame_encmac key nid k pa) initialReplayTable).1.isSome
          = true ∧
     (packet_parse_secure_frame_encmac_keyed key
        (build_secure_frame_encmac key nid k pa) initialReplayTable).2
          = Function.update initialReplayTable nid k) ∧
    (packet_parse_secure_frame_encmac_keyed key
        (build_secure_frame_encmac key nid k pb)
        (Function.update initialReplayTable nid k)
      = (none, Function.update initialReplayTable nid k)) ∧
    (∀ j ≤ k, packet_parse_secure_frame_encmac_keyed key
        (build_secure_frame_encmac key nid j pb)
        (Function.update initialReplayTable nid k)
      = (none, Function.update initialReplayTable nid k)) ∧
    ((packet_parse_secure_frame_encmac_keyed key
        (build_secure_frame_encmac key nid (k + 1) pb)
        (Function.update initialReplayTable nid k)).1.isSome = true) ∧
    ((packet_parse_secure_frame_encmac_keyed key
        (build_secure_frame_encmac key nid (k + 2) pb)
        (Function.update initialReplayTable nid k)).1.isSome = true) ∧
    ((packet_parse_secure_frame_encmac_keyed key
        (build_secure_frame_encmac key nid (k + 2) pa)
        initialReplayTable).1.isSome = true ∧
     (packet_parse_secure_frame_encmac_keyed key
        (build_secure_frame_encmac key nid (k + 2) pa) initialReplayTable).2
          = Function.update initialReplayTable nid (k + 2) ∧
     packet_parse_secure_frame_encmac_keyed key
        (build_secure_frame_encmac key nid (k + 1) pb)
        (Function.update initialReplayTable nid (k + 2))
      = (none, Function.update initialReplayTable nid (k + 2))) := by
  have hzero : initialReplayTable nid = 0 := rfl
  have hupk : Function.update initialReplayTable nid k nid = k :=
    Function.update_same nid k initialReplayTable
  have hupk2 : Function.update initialReplayTable nid (k + 2) nid = k + 2 :=
    Function.update_same nid (k + 2) initialReplayTable
  have general : ∀ (p : List ℕ), p.length = SENSOR_PLAINTEXT_LEN →
      p.getD 0 0 = MSG_TYPE_SENSOR →
      ∀ (s : ℕ) (t : ReplayTable), s < 2 ^ 32 →
      (((packet_parse_secure_frame_encmac_keyed key
          (build_secure_frame_encmac key nid s p) t).1.isSome = true ↔
            t nid < s) ∧
       (t nid < s →
         (packet_parse_secure_frame_encmac_keyed key
           (build_secure_frame_encmac key nid s p) t).2
             = Function.update t nid s) ∧
       (¬ t nid < s →
         packet_parse_secure_frame_encmac_keyed key
           (build_secure_frame_encmac key nid s p) t = (none, t))) := by
    intro p hp hp0 s t hs
    rw [parse_build_eq key nid s p t hp hs]
    by_cases hlt : t nid < s
    · rw [if_neg (not_le.mpr hlt)]
      refine ⟨?_, fun _ => rfl, fun hc => absurd hlt hc⟩
      simp [unpack_isSome hp0, hlt]
    · rw [if_pos (not_lt.mp hlt)]
      simp [hlt]
  refine ⟨general pa hpa hpa0, ?_, ?_, ?_, ?_, ?_, ?_⟩
  · have h := general pa hpa hpa0 k initialReplayTable (by omega)
    exact ⟨h.1.mpr (by omega), h.2.1 (by omega)⟩
  · have h := general pb hpb hpb0 k (Function.update initialReplayTable nid k)
      (by omega)
    exact h.2.2 (by rw [hupk]; omega)
  · intro j hj
    have h := general pb hpb hpb0 j (Function.update initialReplayTable nid k)
      (by omega)
    exact h.2.2 (by rw [hupk]; omega)
  · have h := general pb hpb hpb0 (k + 1)
      (Function.update initialReplayTable nid k) (by omega)
    exact h.1.mpr (by rw [hupk]; omega)
  · have h := general pb hpb hpb0 (k + 2)
      (Function.update initialReplayTable nid k) (by omega)
    exact h.1.mpr (by rw [hupk]; omega)
  · have h1 := general pa hpa hpa0 (k + 2) initialReplayTable (by omega)
    have h2 := general pb hpb hpb0 (k + 1)
      (Function.update initialReplayTable nid (k + 2)) (by omega)
    exact ⟨h1.1.mpr (by rw [hzero]; omega), h1.2.1 (by rw [hzero]; omega),
      h2.2.2 (by rw [hupk2]; omega)⟩

/-- Witness for C2: node 2, sequence 10 first accepted from the zero table,
    replaying 10 is rejected, 11 and 12 are then accepted, and after an
    accepted 12 a frame with sequence 11 is rejected. -/
theorem C2_replay_sequence_enforcement_witness :
    (0 : ℕ) < 10 ∧ (10 : ℕ) + 2 < 2 ^ 32 ∧
    ((packet_parse_secure_frame_encmac_keyed NODE_MASTER_KEY
        (build_secure_frame_encmac NODE_MASTER_KEY 2 10
          (pack_sensor_payload 1 2 3 4)) initialReplayTable).1.isSome
        = true) ∧
    (packet_parse_secure_frame_encmac_keyed NODE_MASTER_KEY
        (build_secure_frame_encmac NODE_MASTER_KEY 2 10
          (pack_sensor_payload 5 6 7 8))
        (Function.update initialReplayTable 2 10)
      = (none, Function.update initialReplayTable 2 10)) ∧
    ((packet_parse_secure_frame_encmac_keyed NODE_MASTER_KEY
        (build_secure_frame_encmac NODE_MASTER_KEY 2 11
          (pack_sensor_payload 5 6 7 8))
        (Function.update initialReplayTable 2 10)).1.isSome = true) ∧
    (packet_parse_secure_frame_encmac_keyed NODE_MASTER_KEY
        (build_secure_frame_encmac NODE_MASTER_KEY 2 11
          (pack_sensor_payload 5 6 7 8))
        (Function.update initialReplayTable 2 12)
      = (none, Function.update initialReplayTable 2 12)) := by
  have h := C2_replay_sequence_enforcement NODE_MASTER_KEY 2
    (pack_sensor_payload 1 2 3 4) (pack_sensor_payload 5 6 7 8) 10
    (pack_sensor_payload_length 1 2 3 4) (by decide)
    (pack_sensor_payload_length 5 6 7 8) (by decide)
    (by norm_num) (by norm_num)
  exact ⟨by norm_num, by norm_num, h.2.1.1, h.2.2.1, h.2.2.2.2.1,
    h.2.2.2.2.2.2.2.2⟩

/-- A plaintext whose leading byte is not the sensor message type never
    unpacks. -/
theorem unpack_none {p : List ℕ} (h : p.getD 0 0 ≠ MSG_TYPE_SENSOR)
    (nid s : ℕ) : unpack_sensor_payload p nid s = none := by
  unfold unpack_sensor_payload
  rw [if_pos h]

/-- Claim C8: a frame whose tag verifies and whose sequence number beats the
    stored replay value, but whose decrypted message-type byte is not the
    sensor constant, is rejected by packet_parse_secure_frame_encmac — yet
    the replay counter for its node id has already been advanced to the
    received sequence, so a later well-formed frame reusing that sequence
    number is rejected as a replay. -/
theorem C8_replay_advances_on_format_failure (key : List ℕ) (nid seq : ℕ)
    (pt pl : List ℕ) (st : ReplayTable)
    (hpt : pt.length = SENSOR_PLAINTEXT_LEN)
    (hpt0 : pt.getD 0 0 ≠ MSG_TYPE_SENSOR)
    (hpl : pl.length = SENSOR_PLAINTEXT_LEN)
    (hseq : seq < 2 ^ 32) (hgt : st nid < seq) :
    packet_parse_secure_frame_encmac_keyed key
      (build_secure_frame_encmac key nid seq pt) st
      = (none, Function.update st nid seq) ∧
    packet_parse_secure_frame_encmac_keyed key
      (build_secure_frame_encmac key nid seq pl)
      (Function.update st nid seq)
      = (none, Function.update st nid seq) := by
  constructor
  · rw [parse_build_eq key nid seq pt st hpt hseq,
      if_neg (not_le.mpr hgt), unpack_none hpt0]
  · rw [parse_build_eq key nid seq pl _ hpl hseq,
      if_pos (le_of_eq (Function.update_same nid seq st).symm)]

set_option maxRecDepth 1000000 in
/-- Witness for C8: node 1, sequence 7, a plaintext starting with the byte
    0x02 — the parse fails but the node-1 replay counter now holds 7, and a
    subsequent well-formed frame with sequence 7 is rejected. -/
theorem C8_replay_advances_on_format_failure_witness :
    initialReplayTable 1 < 7 ∧
    ((0x02 :: List.replicate 14 0).getD 0 0 ≠ MSG_TYPE_SENSOR) ∧
    (packet_parse_secure_frame_encmac_keyed NODE_MASTER_KEY
      (build_secure_frame_encmac NODE_MASTER_KEY 1 7
        (0x02 :: List.replicate 14 0)) initialReplayTable).1 = none ∧
    (packet_parse_secure_frame_encmac_keyed NODE_MASTER_KEY
      (build_secure_frame_encmac NODE_MASTER_KEY 1 7
        (0x02 :: List.replicate 14 0)) initialReplayTable).2 1 = 7 ∧
    (packet_parse_secure_frame_encmac_keyed NODE_MASTER_KEY
      (build_secure_frame_encmac NODE_MASTER_KEY 1 7
        (pack_sensor_payload 9 9 9 9))
      (Function.update initialReplayTable 1 7)).1 = none := by
  have h := C8_replay_advances_on_format_failure NODE_MASTER_KEY 1 7
    (0x02 :: List.replicate 14 0) (pack_sensor_payload 9 9 9 9)
    initialReplayTable (by decide) (by decide)
    (pack_sensor_payload_length 9 9 9 9) (by norm_num) (by decide)
  refine ⟨by decide, by decide, ?_, ?_, ?_⟩
  · rw [h.1]
  · rw [h.1]
    simp [Function.update]
  · rw [h.2]

/-- Claim C9: the replay table is indexed only at the frame's first byte,
    which is below 256 for every well-formed byte buffer; yet the decoder
    itself accepts authenticated frames whose node id lies outside the
    documented 1..MAX_NODES range — including node id 0 — and advances their
    replay counters; the range check happens only downstream, in
    process_frame. -/
theorem C9_node_id_handling (key : List ℕ) (seq : ℕ) (pl : List ℕ)
    (st : ReplayTable)
    (hpl : pl.length = SENSOR_PLAINTEXT_LEN)
    (hpl0 : pl.getD 0 0 = MSG_TYPE_SENSOR)
    (hseq : seq < 2 ^ 32) (hgt : st 0 < seq) :
    (∀ inp : List ℕ, (∀ b ∈ inp, b < 256) → parse_replay_index inp < 256) ∧
    ((packet_parse_secure_frame_encmac_keyed key
        (build_secure_frame_encmac key 0 seq pl) st).1.isSome = true) ∧
    ((packet_parse_secure_frame_encmac_keyed key
        (build_secure_frame_encmac key 0 seq pl) st).1.map sensor_frame.node_id
      = some 0) ∧
    ((packet_parse_secure_frame_encmac_keyed key
        (build_secure_frame_encmac key 0 seq pl) st).2 0 = seq) ∧
    process_frame_node_accepted 0 = false ∧
    (∀ n, MAX_NODES < n → process_frame_node_accepted n = false) ∧
    (∀ n, 1 ≤ n → n ≤ MAX_NODES → process_frame_node_accepted n = true) := by
  have hparse := parse_build_eq key 0 seq pl st hpl hseq
  rw [if_neg (not_le.mpr hgt)] at hparse
  have hunp : unpack_sensor_payload pl 0 seq
      = some
        { node_id := 0
          tx_seq := seq
          x_uT_milli := toInt32 (fromLE32 (pl.getD 1 0) (pl.getD 2 0)
            (pl.getD 3 0) (pl.getD 4 0))
          y_uT_milli := toInt32 (fromLE32 (pl.getD 5 0) (pl.getD 6 0)
            (pl.getD 7 0) (pl.getD 8 0))
          z_uT_milli := toInt32 (fromLE32 (pl.getD 9 0) (pl.getD 10 0)
            (pl.getD 11 0) (pl.getD 12 0))
          temp_c_times10 := toInt16 (fromLE16 (pl.getD 13 0) (pl.getD 14 0)) } := by
    unfold unpack_sensor_payload
    rw [if_neg (fun hc => hc hpl0)]
  refine ⟨?_, ?_, ?_, ?_, by decide, ?_, ?_⟩
  · intro inp hb
    cases inp with
    | nil => simp [parse_replay_index]
    | cons a l =>
        simpa [parse_replay_index] using hb a (List.mem_cons_self a l)
  · rw [hparse, hunp]
    rfl
  · rw [hparse, hunp]
    rfl
  · rw [hparse]
    exact Function.update_same 0 seq st
  · intro n hn
    simp [process_frame_node_accepted, hn]
  · intro n h1 h3
    have h0 : n ≠ 0 := by omega
    have h3' : ¬ (MAX_NODES < n) := not_lt.mpr h3
    simp [process_frame_node_accepted, h0, h3']

set_option maxRecDepth 1000000 in
/-- Witness for C9: a frame from node id 0 with sequence 3 is accepted by
    the decoder from the zero table and advances the counter at index 0,
    while process_frame rejects node id 0 (and node id 4) and accepts
    node id 1. -/
theorem C9_node_id_handling_witness :
    initialReplayTable 0 < 3 ∧
    parse_replay_index (List.replicate 28 255) < 256 ∧
    ((packet_parse_secure_frame_encmac_keyed NODE_MASTER_KEY
        (build_secure_frame_encmac NODE_MASTER_KEY 0 3
          (pack_sensor_payload 1 2 3 4)) initialReplayTable).1.isSome
      = true) ∧
    ((packet_parse_secure_frame_encmac_keyed NODE_MASTER_KEY
        (build_secure_frame_encmac NODE_MASTER_KEY 0 3
          (pack_sensor_payload 1 2 3 4)) initialReplayTable).1.map
        sensor_frame.node_id = some 0) ∧
    ((packet_parse_secure_frame_encmac_keyed NODE_MASTER_KEY
        (build_secure_frame_encmac NODE_MASTER_KEY 0 3
          (pack_sensor_payload 1 2 3 4)) initialReplayTable).2 0 = 3) ∧
    process_frame_node_accepted 0 = false ∧
    process_frame_node_accepted 4 = false ∧
    process_frame_node_accepted 1 = true := by
  have h := C9_node_id_handling NODE_MASTER_KEY 3 (pack_sensor_payload 1 2 3 4)
    initialReplayTable (pack_sensor_payload_length 1 2 3 4) (by decide)
    (by norm_num) (by decide)
  exact ⟨by decide, h.1 (List.replicate 28 255) (by decide), h.2.1, h.2.2.1,
    h.2.2.2.1, h.2.2.2.2.1, h.2.2.2.2.2.1 4 (by decide),
    h.2.2.2.2.2.2 1 (by decide) (by decide)⟩

theorem clamp_0_1000_bounds (v : ℤ) :
    0 ≤ clamp_0_1000 v ∧ clamp_0_1000 v ≤ 1000 := by
  unfold clamp_0_1000
  split_ifs <;> omega

theorem clampR_0_1000_bounds (v : ℝ) :
    0 ≤ clampR_0_1000 v ∧ clampR_0_1000 v ≤ 1000 := by
  unfold clampR_0_1000
  split_ifs with h1 h2
  · norm_num
  · norm_num
  · exact ⟨le_of_not_lt h1, le_of_not_lt h2⟩

theorem store_position_fold_inrange (ests : List (Option (ℤ × ℤ))) :
    ∀ c : lora_position, 0 ≤ c.x → c.x ≤ 1000 → 0 ≤ c.y → c.y ≤ 1000 →
      (0 ≤ (ests.foldl (fun c e => process_frame_store_position e c) c).x ∧
       (ests.foldl (fun c e => process_frame_store_position e c) c).x ≤ 1000 ∧
       0 ≤ (ests.foldl (fun c e => process_frame_store_position e c) c).y ∧
       (ests.foldl (fun c e => process_frame_store_position e c) c).y ≤ 1000) := by
  induction ests with
  | nil => exact fun c h1 h2 h3 h4 => ⟨h1, h2, h3, h4⟩
  | cons e t ih =>
      intro c h1 h2 h3 h4
      rw [List.foldl_cons]
      cases e with
      | none => exact ih c h1 h2 h3 h4
      | some p =>
          exact ih _ (clamp_0_1000_bounds p.1).1 (clamp_0_1000_bounds p.1).2
            (clamp_0_1000_bounds p.2).1 (clamp_0_1000_bounds p.2).2

/-- Claim C3: the position stored for publication by process_frame is always
    within 0..1000 on both axes — starting from the zero-initialized
    current_position, every estimate is clamped on both axes before being
    stored, over any sequence of frames; and the triangulation estimator
    itself clamps its output to the same bound before returning it. -/
theorem C3_published_position_clamped :
    (∀ ests : List (Option (ℤ × ℤ)),
      0 ≤ (ests.foldl (fun c e => process_frame_store_position e c)
            initial_current_position).x ∧
      (ests.foldl (fun c e => process_frame_store_position e c)
            initial_current_position).x ≤ 1000 ∧
      0 ≤ (ests.foldl (fun c e => process_frame_store_position e c)
            initial_current_position).y ∧
      (ests.foldl (fun c e => process_frame_store_position e c)
            initial_current_position).y ≤ 1000) ∧
    (∀ nodes : ℕ → node_state,
      (position_estimate_triangulation nodes).elim True
        (fun p => 0 ≤ p.1 ∧ p.1 ≤ 1000 ∧ 0 ≤ p.2 ∧ p.2 ≤ 1000)) := by
  constructor
  · intro ests
    exact store_position_fold_inrange ests initial_current_position
      (by decide) (by decide) (by decide) (by decide)
  · intro nodes
    have key : ∀ r : tri_acc,
        (if r.valid_sensors < 2 ∨ r.sum_weights ≤ 0 then (none : Option (ℝ × ℝ))
         else some (clampR_0_1000 (r.weighted_x / r.sum_weights),
           clampR_0_1000 (r.weighted_y / r.sum_weights))).elim True
          (fun p => 0 ≤ p.1 ∧ p.1 ≤ 1000 ∧ 0 ≤ p.2 ∧ p.2 ≤ 1000) := by
      intro r
      split
      · trivial
      · exact ⟨(clampR_0_1000_bounds _).1, (clampR_0_1000_bounds _).2,
          (clampR_0_1000_bounds _).1, (clampR_0_1000_bounds _).2⟩
    exact key _

theorem int32cast_of_range {z : ℤ} (h1 : -(2 ^ 31) ≤ z) (h2 : z < 2 ^ 31) :
    int32cast z = z := by
  unfold int32cast
  omega

theorem tdiv_ten_bounds {s : ℤ} (h1 : -(2 ^ 31) * 10 ≤ s)
    (h2 : s ≤ (2 ^ 31 - 1) * 10) :
    -(2 ^ 31) ≤ s.tdiv 10 ∧ s.tdiv 10 < 2 ^ 31 := by
  rcases le_or_lt 0 s with hs | hs
  · rw [Int.tdiv_eq_ediv hs (by norm_num)]
    constructor <;> omega
  · have hneg : s.tdiv 10 = -((-s).tdiv 10) := by
      rw [Int.neg_tdiv, neg_neg]
    rw [hneg, Int.tdiv_eq_ediv (by omega) (by norm_num)]
    constructor <;> omega

theorem list_sum_bounds {lo hi : ℤ} :
    ∀ l : List ℤ, (∀ v ∈ l, lo ≤ v ∧ v ≤ hi) →
      lo * l.length ≤ l.sum ∧ l.sum ≤ hi * l.length
  | [], _ => by simp
  | v :: t, h => by
      have hv := h v (List.mem_cons_self v t)
      have ih := list_sum_bounds t (fun w hw => h w (List.mem_cons_of_mem v hw))
      simp only [List.sum_cons, List.length_cons]
      push_cast
      constructor <;> nlinarith [ih.1, ih.2, hv.1, hv.2]

theorem baseline_step_of_valid (bd : baseline_data) (B : vec3_i32)
    (h : bd.valid = true) : baseline_step bd B = bd := by
  unfold baseline_step
  rw [if_pos h]

theorem baseline_foldl_of_valid (l : List vec3_i32) (bd : baseline_data)
    (h : bd.valid = true) : l.foldl baseline_step bd = bd := by
  induction l with
  | nil => rfl
  | cons B t ih => rw [List.foldl_cons, baseline_step_of_valid bd B h, ih]

/-- Full characterization of a baseline run from a not-yet-valid state: with
    fewer than the required readings it stays invalid with running sums;
    once the count reaches the threshold it is frozen at the state averaged
    over exactly the first (required - c) readings. -/
theorem baseline_foldl_char :
    ∀ (l : List vec3_i32) (c : ℕ) (sx sy sz : ℤ) (amb : vec3_i32),
      c < BASELINE_READINGS_REQUIRED →
      l.foldl baseline_step (baseline_data.mk false c sx sy sz amb)
        = if c + l.length < BASELINE_READINGS_REQUIRED then
            baseline_data.mk false (c + l.length)
              (sx + (l.map vec3_i32.x).sum) (sy + (l.map vec3_i32.y).sum)
              (sz + (l.map vec3_i32.z).sum) amb
          else
            baseline_data.mk true BASELINE_READINGS_REQUIRED
              (sx + ((l.take (BASELINE_READINGS_REQUIRED - c)).map vec3_i32.x).sum)
              (sy + ((l.take (BASELINE_READINGS_REQUIRED - c)).map vec3_i32.y).sum)
              (sz + ((l.take (BASELINE_READINGS_REQUIRED - c)).map vec3_i32.z).sum)
              (vec3_i32.mk
                (int32cast ((sx + ((l.take (BASELINE_READINGS_REQUIRED - c)).map vec3_i32.x).sum).tdiv
                  (BASELINE_READINGS_REQUIRED : ℤ)))
                (int32cast ((sy + ((l.take (BASELINE_READINGS_REQUIRED - c)).map vec3_i32.y).sum).tdiv
                  (BASELINE_READINGS_REQUIRED : ℤ)))
                (int32cast ((sz + ((l.take (BASELINE_READINGS_REQUIRED - c)).map vec3_i32.z).sum).tdiv
                  (BASELINE_READINGS_REQUIRED : ℤ))))
  | [], c, sx, sy, sz, amb, hc => by
      rw [if_pos (by simpa using hc)]
      simp
  | B :: t, c, sx, sy, sz, amb, hc => by
      rw [List.foldl_cons]
      have hstep : baseline_step (baseline_data.mk false c sx sy sz amb) B
          = if BASELINE_READINGS_REQUIRED ≤ c + 1 then
              baseline_data.mk true (c + 1) (sx + B.x) (sy + B.y) (sz + B.z)
                (vec3_i32.mk (int32cast ((sx + B.x).tdiv ((c + 1 : ℕ) : ℤ)))
                  (int32cast ((sy + B.y).tdiv ((c + 1 : ℕ) : ℤ)))
                  (int32cast ((sz + B.z).tdiv ((c + 1 : ℕ) : ℤ))))
            else
              baseline_data.mk false (c + 1) (sx + B.x) (sy + B.y) (sz + B.z)
                amb := by
        unfold baseline_step
        norm_num
      by_cases hfull : BASELINE_READINGS_REQUIRED ≤ c + 1
      · have h10 : c + 1 = BASELINE_READINGS_REQUIRED := by omega
        have htake : BASELINE_READINGS_REQUIRED - c = 1 := by omega
        rw [hstep, if_pos hfull, baseline_foldl_of_valid t _ rfl,
          if_neg (by simp only [List.length_cons]; omega), htake, h10]
        simp
      · have hrec := baseline_foldl_char t (c + 1) (sx + B.x) (sy + B.y)
          (sz + B.z) amb (by omega)
        rw [hstep, if_neg hfull, hrec]
        by_cases hlt : c + 1 + t.length < BASELINE_READINGS_REQUIRED
        · rw [if_pos hlt, if_pos (by simp only [List.length_cons]; omega)]
          simp only [List.length_cons, List.map_cons, List.sum_cons,
            baseline_data.mk.injEq, add_assoc]
          refine ⟨trivial, by omega, trivial, trivial, trivial, trivial⟩
        · rw [if_neg hlt, if_neg (by simp only [List.length_cons]; omega)]
          have htk : BASELINE_READINGS_REQUIRED - c
              = (BASELINE_READINGS_REQUIRED - (c + 1)) + 1 := by omega
          rw [htk, List.take_succ_cons]
          simp only [List.map_cons, List.sum_cons, add_assoc]

/-- Claim C4: during the baseline phase a node's baseline becomes valid
    exactly on the reading that brings its count to
    BASELINE_READINGS_REQUIRED; at that moment the stored ambient vector is
    the truncated integer quotient of each 64-bit axis accumulator by the
    count; once valid no further reading modifies the state, until the
    operator RESTART command clears every baseline. -/
theorem C4_baseline_mean_and_freeze (readings : List vec3_i32)
    (hb : ∀ B ∈ readings,
      -(2 ^ 31) ≤ B.x ∧ B.x < 2 ^ 31 ∧ -(2 ^ 31) ≤ B.y ∧ B.y < 2 ^ 31 ∧
      -(2 ^ 31) ≤ B.z ∧ B.z < 2 ^ 31) :
    (∀ n, n ≤ readings.length →
      ((readings.take n).foldl baseline_step initial_baseline_data).valid
        = decide (BASELINE_READINGS_REQUIRED ≤ n)) ∧
    (BASELINE_READINGS_REQUIRED ≤ readings.length →
      ((readings.take BASELINE_READINGS_REQUIRED).foldl baseline_step
          initial_baseline_data).B_ambient
        = vec3_i32.mk
            ((((readings.take BASELINE_READINGS_REQUIRED).map vec3_i32.x).sum).tdiv
              (BASELINE_READINGS_REQUIRED : ℤ))
            ((((readings.take BASELINE_READINGS_REQUIRED).map vec3_i32.y).sum).tdiv
              (BASELINE_READINGS_REQUIRED : ℤ))
            ((((readings.take BASELINE_READINGS_REQUIRED).map vec3_i32.z).sum).tdiv
              (BASELINE_READINGS_REQUIRED : ℤ))) ∧
    (∀ n, BASELINE_READINGS_REQUIRED ≤ n →
      (readings.take n).foldl baseline_step initial_baseline_data
        = (readings.take BASELINE_READINGS_REQUIRED).foldl baseline_step
            initial_baseline_data) ∧
    (∀ ctx : calib_ctx, ctx.state = calib_state_t.CALIB_STATE_BASELINE →
      (console_command ctx console_cmd.RESTART).baselines
        = fun _ => initial_baseline_data) := by
  have hinit : initial_baseline_data
      = baseline_data.mk false 0 0 0 0 (vec3_i32.mk 0 0 0) := rfl
  have hR : 0 < BASELINE_READINGS_REQUIRED := by decide
  refine ⟨?_, ?_, ?_, ?_⟩
  · intro n hn
    have hlen : (readings.take n).length = n := by
      rw [List.length_take]
      omega
    rw [hinit, baseline_foldl_char (readings.take n) 0 0 0 0 _ hR, hlen]
    by_cases h : n < BASELINE_READINGS_REQUIRED
    · rw [if_pos (by omega)]
      simp [h]
    · rw [if_neg (by omega)]
      simp
      omega
  · intro hlong
    have hlen : (readings.take BASELINE_READINGS_REQUIRED).length
        = BASELINE_READINGS_REQUIRED := by
      rw [List.length_take]
      omega
    rw [hinit, baseline_foldl_char _ 0 0 0 0 _ hR, hlen,
      if_neg (by omega)]
    simp only [Nat.sub_zero, List.take_take, min_self, zero_add]
    have hx := @list_sum_bounds (-(2 ^ 31)) (2 ^ 31 - 1)
      ((readings.take BASELINE_READINGS_REQUIRED).map vec3_i32.x)
      (fun v hv => by
        obtain ⟨B, hB, rfl⟩ := List.mem_map.mp hv
        have := hb B (List.mem_of_mem_take hB)
        exact ⟨this.1, by omega⟩)
    have hy := @list_sum_bounds (-(2 ^ 31)) (2 ^ 31 - 1)
      ((readings.take BASELINE_READINGS_REQUIRED).map vec3_i32.y)
      (fun v hv => by
        obtain ⟨B, hB, rfl⟩ := List.mem_map.mp hv
        have := hb B (List.mem_of_mem_take hB)
        exact ⟨this.2.2.1, by omega⟩)
    have hz := @list_sum_bounds (-(2 ^ 31)) (2 ^ 31 - 1)
      ((readings.take BASELINE_READINGS_REQUIRED).map vec3_i32.z)
      (fun v hv => by
        obtain ⟨B, hB, rfl⟩ := List.mem_map.mp hv
        have := hb B (List.mem_of_mem_take hB)
        exact ⟨this.2.2.2.2.1, by omega⟩)
    have hcast : ((BASELINE_READINGS_REQUIRED : ℕ) : ℤ) = 10 := rfl
    rw [List.length_map, hlen, hcast] at hx hy hz
    rw [hcast]
    congr 1
    · exact int32cast_of_range (tdiv_ten_bounds (by push_cast at hx ⊢; omega)
        (by push_cast at hx ⊢; omega)).1
        (tdiv_ten_bounds (by push_cast at hx ⊢; omega)
          (by push_cast at hx ⊢; omega)).2
    · exact int32cast_of_range (tdiv_ten_bounds (by push_cast at hy ⊢; omega)
        (by push_cast at hy ⊢; omega)).1
        (tdiv_ten_bounds (by push_cast at hy ⊢; omega)
          (by push_cast at hy ⊢; omega)).2
    · exact int32cast_of_range (tdiv_ten_bounds (by push_cast at hz ⊢; omega)
        (by push_cast at hz ⊢; omega)).1
        (tdiv_ten_bounds (by push_cast at hz ⊢; omega)
          (by push_cast at hz ⊢; omega)).2
  · intro n hn
    rw [hinit, baseline_foldl_char (readings.take n) 0 0 0 0 _ hR,
      baseline_foldl_char (readings.take BASELINE_READINGS_REQUIRED) 0 0 0 0 _ hR]
    rcases le_or_lt BASELINE_READINGS_REQUIRED readings.length with hlen | hlen
    · rw [if_neg (by rw [List.length_take]; omega),
        if_neg (by rw [List.length_take]; omega)]
      simp only [Nat.sub_zero, List.take_take, min_self,
        min_eq_left hn]
    · rw [if_pos (by rw [List.length_take]; omega),
        if_pos (by rw [List.length_take]; omega)]
      rw [List.take_of_length_le (by omega), List.take_of_length_le (by omega)]
  · intro ctx hst
    cases ctx with
    | mk st mq cnt idx bl pts =>
        simp only at hst
        subst hst
        rfl

/-- Witness for C4: eleven identical readings (4, -6, 9); the baseline is
    invalid after 9 readings, valid after 10 with the exact averaged
    ambient vector, the eleventh reading changes nothing, and RESTART from
    the baseline phase clears the baselines. -/
theorem C4_baseline_mean_and_freeze_witness :
    (∀ B ∈ List.replicate 11 (vec3_i32.mk 4 (-6) 9),
      -(2 ^ 31) ≤ B.x ∧ B.x < 2 ^ 31 ∧ -(2 ^ 31) ≤ B.y ∧ B.y < 2 ^ 31 ∧
      -(2 ^ 31) ≤ B.z ∧ B.z < 2 ^ 31) ∧
    (((List.replicate 11 (vec3_i32.mk 4 (-6) 9)).take 9).foldl baseline_step
        initial_baseline_data).valid = false ∧
    (((List.replicate 11 (vec3_i32.mk 4 (-6) 9)).take 10).foldl baseline_step
        initial_baseline_data).valid = true ∧
    (((List.replicate 11 (vec3_i32.mk 4 (-6) 9)).take 10).foldl baseline_step
        initial_baseline_data).B_ambient = vec3_i32.mk 4 (-6) 9 ∧
    ((List.replicate 11 (vec3_i32.mk 4 (-6) 9)).take 11).foldl baseline_step
        initial_baseline_data
      = ((List.replicate 11 (vec3_i32.mk 4 (-6) 9)).take 10).foldl
          baseline_step initial_baseline_data ∧
    (console_command ctxC4 console_cmd.RESTART).baselines
      = fun _ => initial_baseline_data := by
  have h := C4_baseline_mean_and_freeze
    (List.replicate 11 (vec3_i32.mk 4 (-6) 9)) (by decide)
  refine ⟨by decide, ?_, ?_, ?_, ?_, ?_⟩
  · have := h.1 9 (by decide)
    rw [this]
    decide
  · have := h.1 10 (by decide)
    rw [this]
    decide
  · have := h.2.1 (by decide)
    rw [show BASELINE_READINGS_REQUIRED = 10 from rfl] at this
    rw [this]
    decide
  · have := h.2.2.1 11 (by decide)
    rwa [show BASELINE_READINGS_REQUIRED = 10 from rfl] at this
  · exact h.2.2.2 ctxC4 rfl

/-- Claim C6: from the WaitingForPositionInput state the operator START
    command always moves the calibration state machine of calibration.c to
    Running, enables publishing and closes the open calibration point, with
    no minimum on the point count — zero captured points suffice, the
    lookup table being optional. -/
theorem C6_start_requires_no_points (ctx : calib_ctx)
    (hst : ctx.state = calib_state_t.CALIB_STATE_WAITING_INPUT) :
    (console_command ctx console_cmd.START).state
        = calib_state_t.CALIB_STATE_RUNNING ∧
    (console_command ctx console_cmd.START).mqtt_publish_enabled = true ∧
    (console_command ctx console_cmd.START).current_calib_idx = -1 ∧
    (console_command ctx console_cmd.START).calib_point_count
        = ctx.calib_point_count := by
  cases ctx with
  | mk st mq cnt idx bl pts =>
      simp only at hst
      subst hst
      exact ⟨rfl, rfl, rfl, rfl⟩

/-- Witness for C6: a context in the position-input phase with zero
    calibration points; START enters Running and enables publishing. -/
theorem C6_start_requires_no_points_witness :
    ctxC6.state = calib_state_t.CALIB_STATE_WAITING_INPUT ∧
    ctxC6.calib_point_count = 0 ∧
    (console_command ctxC6 console_cmd.START).state
        = calib_state_t.CALIB_STATE_RUNNING ∧
    (console_command ctxC6 console_cmd.START).mqtt_publish_enabled = true :=
  ⟨rfl, rfl, (C6_start_requires_no_points ctxC6 rfl).1,
    (C6_start_requires_no_points ctxC6 rfl).2.1⟩

/-- Claim C7: when exactly two nodes have valid baselines and their
    magnet-only fields have equal magnitude at or above the 100 milli-uT
    noise floor, position_estimate_triangulation succeeds and returns the
    midpoint of the two fixed sensor positions (each output coordinate the
    average of the two sensor coordinates; the final clamp leaves the
    midpoint unchanged since all sensor coordinates lie in 0..1000). -/
theorem C7_triangulation_midpoint (nodes : ℕ → node_state) (i j : ℕ)
    (hi1 : 1 ≤ i) (hij : i < j) (hj : j ≤ MAX_NODES)
    (hbi : (nodes i).have_baseline = true)
    (hbj : (nodes j).have_baseline = true)
    (hother : ∀ k, 1 ≤ k → k ≤ MAX_NODES → k ≠ i → k ≠ j →
      (nodes k).have_baseline = false)
    (heq : node_B_magnitude (nodes i) = node_B_magnitude (nodes j))
    (hfloor : 100 ≤ node_B_magnitude (nodes i)) :
    position_estimate_triangulation nodes
      = some (((g_sensor_pos i).x + (g_sensor_pos j).x) / 2,
              ((g_sensor_pos i).y + (g_sensor_pos j).y) / 2) := by
  have hj3 : j ≤ 3 := hj
  have hm0 : (0 : ℝ) < node_B_magnitude (nodes i) :=
    lt_of_lt_of_le (by norm_num) hfloor
  have hfi : ¬ node_B_magnitude (nodes i) < 100 := not_lt.mpr hfloor
  have hfj : ¬ node_B_magnitude (nodes j) < 100 := by
    rw [← heq]
    exact hfi
  have hrange : List.range' 1 MAX_NODES = [1, 2, 3] := rfl
  have hi2 : i ≤ 2 := by omega
  set m := node_B_magnitude (nodes i) with hm
  interval_cases i <;> interval_cases j
  · -- i = 1, j = 2
    have h3 : (nodes 3).have_baseline = false :=
      hother 3 (by norm_num) (by decide) (by norm_num) (by norm_num)
    unfold position_estimate_triangulation
    rw [hrange]
    simp only [List.foldl_cons, List.foldl_nil, hbi, hbj, h3, ← heq, ← hm,
      if_neg hfi, Bool.true_eq_false, if_false, if_true, g_sensor_pos]
    rw [if_neg (by push_neg; exact ⟨by norm_num, by linarith⟩)]
    have e1 : ((0 : ℝ) + m * 500 + m * 1000) / (0 + m + m) = 750 := by
      rw [div_eq_iff (by linarith)]
      ring
    have e2 : ((0 : ℝ) + m * 1000 + m * 0) / (0 + m + m) = 500 := by
      rw [div_eq_iff (by linarith)]
      ring
    rw [e1, e2]
    norm_num [clampR_0_1000]
  · -- i = 1, j = 3
    have h2 : (nodes 2).have_baseline = false :=
      hother 2 (by norm_num) (by decide) (by norm_num) (by norm_num)
    unfold position_estimate_triangulation
    rw [hrange]
    simp only [List.foldl_cons, List.foldl_nil, hbi, hbj, h2, ← heq, ← hm,
      if_neg hfi, Bool.true_eq_false, if_false, if_true, g_sensor_pos]
    rw [if_neg (by push_neg; exact ⟨by norm_num, by linarith⟩)]
    have e1 : ((0 : ℝ) + m * 500 + m * 0) / (0 + m + m) = 250 := by
      rw [div_eq_iff (by linarith)]
      ring
    have e2 : ((0 : ℝ) + m * 1000 + m * 0) / (0 + m + m) = 500 := by
      rw [div_eq_iff (by linarith)]
      ring
    rw [e1, e2]
    norm_num [clampR_0_1000]
  · -- i = 2, j = 3
    have h1 : (nodes 1).have_baseline = false :=
      hother 1 (by norm_num) (by decide) (by norm_num) (by norm_num)
    unfold position_estimate_triangulation
    rw [hrange]
    simp only [List.foldl_cons, List.foldl_nil, hbi, hbj, h1, ← heq, ← hm,
      if_neg hfi, Bool.true_eq_false, if_false, if_true, g_sensor_pos]
    rw [if_neg (by push_neg; exact ⟨by norm_num, by linarith⟩)]
    have e1 : ((0 : ℝ) + m * 1000 + m * 0) / (0 + m + m) = 500 := by
      rw [div_eq_iff (by linarith)]
      ring
    have e2 : ((0 : ℝ) + m * 0 + m * 0) / (0 + m + m) = 0 := by
      rw [div_eq_iff (by linarith)]
      ring
    rw [e1, e2]
    norm_num [clampR_0_1000]

/-- Witness for C7: nodes 1 and 2 both measuring the magnet-only field
    (0, 0, 100) — equal magnitudes of exactly 100 — make triangulation
    return the midpoint (750, 500) of sensors 1 and 2. -/
theorem C7_triangulation_midpoint_witness :
    (nodesC7 1).have_baseline = true ∧
    (nodesC7 2).have_baseline = true ∧
    node_B_magnitude (nodesC7 1) = node_B_magnitude (nodesC7 2) ∧
    100 ≤ node_B_magnitude (nodesC7 1) ∧
    position_estimate_triangulation nodesC7 = some (750, 500) := by
  have hmag : node_B_magnitude (nodesC7 1) = 100 := by
    have hB : (nodesC7 1).last_B_mag = vec3_i32.mk 0 0 100 := rfl
    unfold node_B_magnitude
    rw [hB]
    push_cast
    rw [show (0 : ℝ) * 0 + 0 * 0 + 100 * 100 = 100 ^ 2 by norm_num]
    exact Real.sqrt_sq (by norm_num)
  have hother : ∀ k, 1 ≤ k → k ≤ MAX_NODES → k ≠ 1 → k ≠ 2 →
      (nodesC7 k).have_baseline = false := by
    intro k h1 h3 n1 n2
    have h3' : k ≤ 3 := h3
    interval_cases k
    · exact absurd rfl n1
    · exact absurd rfl n2
    · rfl
  have h := C7_triangulation_midpoint nodesC7 1 2 (by norm_num) (by norm_num)
    (by decide) rfl rfl hother rfl (by rw [hmag])
  refine ⟨rfl, rfl, rfl, by rw [hmag], ?_⟩
  rw [h]
  norm_num [g_sensor_pos]

/-- Counterexample for C5: with nodes 1 and 2 reading a (0, 0, 100)
    magnet-only field (anomaly 100) and an empty calibration table,
    triangulation succeeds with (750, 500) and the documented combination
    policy therefore outputs (750, 500) — but the estimator actually invoked
    by process_frame (estimate_position_2D in lora.c) outputs (0, 500), the
    anomaly-weighted centroid over lora.c's own node-position table.  The
    running pipeline does not follow the documented policy. -/
theorem C5_pipeline_policy_counterexample :
    position_estimate_triangulation nodesC5 = some (750, 500) ∧
    combination_policy_spec (position_estimate_triangulation nodesC5)
      (position_estimate_lookup nodesC5 []) (List.length ([] : List calib_point))
      = some (750, 500) ∧
    lora_estimate_position_2D nodesC5 [] = some (0, 500) ∧
    lora_estimate_position_2D nodesC5 []
      ≠ combination_policy_spec (position_estimate_triangulation nodesC5)
          (position_estimate_lookup nodesC5 [])
          (List.length ([] : List calib_point)) := by
  have hm1 : node_B_magnitude (nodesC5 1) = 100 := by
    have hB : (nodesC5 1).last_B_mag = vec3_i32.mk 0 0 100 := rfl
    unfold node_B_magnitude
    rw [hB]
    push_cast
    rw [show (0 : ℝ) * 0 + 0 * 0 + 100 * 100 = 100 ^ 2 by norm_num]
    exact Real.sqrt_sq (by norm_num)
  have hm2 : node_B_magnitude (nodesC5 2) = 100 := hm1
  have htri : position_estimate_triangulation nodesC5 = some (750, 500) := by
    unfold position_estimate_triangulation
    rw [show List.range' 1 MAX_NODES = [1, 2, 3] from rfl]
    simp only [List.foldl_cons, List.foldl_nil,
      show (nodesC5 1).have_baseline = true from rfl,
      show (nodesC5 2).have_baseline = true from rfl,
      show (nodesC5 3).have_baseline = false from rfl,
      hm1, hm2, Bool.true_eq_false, if_false, if_true, g_sensor_pos]
    norm_num [clampR_0_1000]
  have hanom : estimate_position_anomaly nodesC5 = some (0, 500) := by
    have hw : anomaly_weight ((100 : ℤ)) = 1000000 := by
      unfold anomaly_weight
      push_cast
      rw [abs_of_nonneg (by norm_num : (0 : ℝ) ≤ 100)]
      norm_num
    unfold estimate_position_anomaly
    rw [show List.range' 1 MAX_NODES = [1, 2, 3] from rfl]
    simp only [List.foldl_cons, List.foldl_nil,
      show (nodesC5 1).have_baseline = true from rfl,
      show (nodesC5 2).have_baseline = true from rfl,
      show (nodesC5 3).have_baseline = false from rfl,
      show (nodesC5 1).last_dAbsB = (100 : ℤ) from rfl,
      show (nodesC5 2).last_dAbsB = (100 : ℤ) from rfl,
      hw, Bool.true_eq_false, if_false, if_true, lora_node_pos]
    norm_num
  have hpipe : lora_estimate_position_2D nodesC5 [] = some (0, 500) := by
    unfold lora_estimate_position_2D
    rw [if_neg (by norm_num)]
    exact hanom
  refine ⟨htri, ?_, hpipe, ?_⟩
  · rw [htri]
    rfl
  · rw [htri, hpipe]
    simp [combination_policy_spec, Prod.ext_iff]

/-- Claim C5 (amended): position_estimate_2D in position.c refines the
    documented combination policy exactly (triangulation first, 0.7/0.3
    blend when at least 2 points exist and the lookup succeeds, lookup alone
    when triangulation fails, nothing when both fail) — but the estimator
    wired into the running pipeline, estimate_position_2D in lora.c, instead
    uses the scalar calibrated interpolation when at least 2 calibration
    points exist and the anomaly-weighted centroid otherwise. -/
theorem C5_blend_policy_amended (nodes : ℕ → node_state)
    (pts3d : List calib_point) (ptsl : List lora_calib_point) :
    position_estimate_2D nodes pts3d
      = combination_policy_spec (position_estimate_triangulation nodes)
          (position_estimate_lookup nodes pts3d) pts3d.length ∧
    lora_estimate_position_2D nodes ptsl
      = (if 2 ≤ ptsl.length then estimate_position_calibrated nodes ptsl
         else estimate_position_anomaly nodes) :=
  ⟨rfl, rfl⟩

/-- Claim C10: whenever position_estimate_dipole's iteration loop stops
    before GN_MAX_ITERATIONS — which covers the singular-matrix break, the
    convergence break and the divergence-guard break alike — the returned
    estimate's converged flag is set (it is exactly the test
    iterations < GN_MAX_ITERATIONS), and the module's saved warm-start
    estimate is overwritten with the result exactly when that flag is set;
    so an aborted solve is reported as converged and seeds the next
    solve. -/
theorem C10_early_exit_reported_converged (nodes : ℕ → node_state)
    (guess : Option position_estimate) (g_last : position_estimate) :
    ((position_estimate_dipole nodes guess g_last).1.elim True
      (fun res => res.converged = decide (res.iterations < GN_MAX_ITERATIONS))) ∧
    ((position_estimate_dipole nodes guess g_last).2
      = (position_estimate_dipole nodes guess g_last).1.elim g_last
          (fun res => if res.converged = true then res else g_last)) := by
  unfold position_estimate_dipole
  cases guess <;> split <;> first
    | exact ⟨trivial, rfl⟩
    | exact ⟨rfl, rfl⟩
